import Mathlib

/-!
Verification development for a multi-chain wallet monitoring service.

The service polls EVM chains block-by-block and Solana by account signatures,
filters transactions touching tracked addresses by per-entity minimum-amount
thresholds, deduplicates alerts on the (chain, transaction id, tracked entity)
triple, and computes a heuristic risk score over a recent-activity window.

The definitions below are a shallow embedding of the TypeScript source:
* JavaScript numbers are modelled as `ℚ` (amounts, timestamps, scores),
  block heights and identifiers as `ℕ`, lamport balances as `ℤ`;
  hex-string numeric fields (block numbers, timestamps, wei values) are
  modelled by their numeric value.
* `Math.round` is modelled by `jsRound` (round half toward positive infinity).
* Network I/O (JSON-RPC reads, Telegram sends) is modelled by explicit
  environment records (`EvmEnv`, `SolEnv`); a `none`/`false` entry stands for
  a failed call, mirroring the `try`/`catch` structure of the source.
* Database rows are explicit lists; Prisma `findUnique`/`create`/`updateMany`
  become list lookup/append/map.
-/

/-- Transaction direction; `incoming` and `outgoing` model the source's
string literals `'in'` and `'out'`. -/
inductive Direction where
  | incoming
  | outgoing
deriving DecidableEq, Repr

/-- Risk level classification (`types.ts`). -/
inductive RiskLevel where
  | low
  | medium
  | high
  | critical
deriving DecidableEq, Repr

/-- Supported chains (`types.ts`). -/
inductive Chain where
  | eth
  | base
  | avax
  | sol
deriving DecidableEq, Repr

/-- String identifier of a chain, as used in route handlers and the worker. -/
def chainId : Chain → String
  | Chain.eth => "eth"
  | Chain.base => "base"
  | Chain.avax => "avax"
  | Chain.sol => "sol"

/-- Uniform activity record produced by the chain readers (`types.ts`,
`TransactionActivity`); the `from` and `to` fields of the source are renamed
since `from` is a Lean keyword. -/
structure TransactionActivity where
  hash : String
  timestamp : ℚ
  fromAddress : String
  toAddress : String
  amount : ℚ
  asset : String
  direction : Direction
deriving DecidableEq, Repr

/-- EVM transaction as returned by `eth_getBlockByNumber` (`types.ts`,
`EVMTransaction`); `value` is the wei amount (hex string in the source),
`timestamp` is filled in by the scanners from the enclosing block. -/
structure EVMTransaction where
  hash : String
  fromAddress : String
  toAddress : Option String
  value : ℕ
  timestamp : Option ℕ
deriving DecidableEq, Repr

/-- EVM block with full transaction objects (`types.ts`, `EVMBlock`).
Hash-only (string) transaction entries, which the source skips, are omitted. -/
structure EVMBlock where
  timestamp : ℕ
  transactions : List EVMTransaction
deriving DecidableEq, Repr

/-- Solana signature info (`types.ts`, `SolanaSignature`); `err` models
presence of a chain-reported error object. -/
structure SolanaSignature where
  signature : String
  slot : ℕ
  blockTime : Option ℤ
  err : Bool
deriving DecidableEq, Repr

/-- Solana transaction detail: account keys with pre/post lamport balances
(`types.ts`, `SolanaTransaction`, flattened to the fields the service reads). -/
structure SolanaTransaction where
  accountKeys : List String
  preBalances : List ℤ
  postBalances : List ℤ
deriving DecidableEq, Repr

/-- A tracked address registration (Prisma model `TrackedAddress`). -/
structure TrackedAddress where
  id : ℕ
  userId : ℕ
  chain : String
  address : String
  label : String
  minAmount : ℚ
  isActive : Bool
  lastSeenCursor : Option String
deriving DecidableEq, Repr

/-- A persisted alert record (Prisma model `AlertEvent`); the triple
(chain, txHashOrSig, trackedAddressId) is the deduplication key. -/
structure AlertEvent where
  trackedAddressId : ℕ
  chain : String
  txHashOrSig : String
  timestamp : ℚ
  direction : Direction
  amount : ℚ
  asset : String
  sentToTelegram : Bool
deriving DecidableEq, Repr

/-- Environment of one EVM poll cycle: the JSON-RPC answers and the Telegram
delivery outcomes. `latestBlock = none` models a failed `eth_blockNumber`
call, `blocks n = none` a failed or empty `eth_getBlockByNumber` fetch. -/
structure EvmEnv where
  latestBlock : Option ℕ
  blocks : ℕ → Option EVMBlock
  now : ℚ
  sendOk : String → ℕ → Bool

/-- Environment of one Solana poll cycle: `signatures` is the
`getSignaturesForAddress` answer (most recent first, before the `limit` cap),
`txs` the `getTransaction` answer per signature. -/
structure SolEnv where
  signatures : String → List SolanaSignature
  txs : String → Option SolanaTransaction
  now : ℚ
  sendOk : String → ℕ → Bool

/-- JavaScript `Math.round`: round to nearest, half toward positive
infinity. -/
def jsRound (q : ℚ) : ℤ := ⌊q + 1/2⌋

/-- Round to nearest with ties away from zero; the rounding rule named by the
specification for native-amount conversion. -/
def halfAwayFromZero (q : ℚ) : ℤ := if 0 ≤ q then ⌊q + 1/2⌋ else -⌊-q + 1/2⌋

/-- ASCII lower-casing of one character, modelling
`String.prototype.toLowerCase` on the ASCII alphabet used by addresses. -/
def lowerChar (c : Char) : Char :=
  if 'A' ≤ c ∧ c ≤ 'Z' then Char.ofNat (c.toNat + 32) else c

/-- `EVMService.normalizeAddress`: lower-case the address
(`address.toLowerCase()`). -/
def normalizeAddress (address : String) : String := ⟨address.data.map lowerChar⟩

/-- Hexadecimal digit as accepted by the EVM address regex `[a-fA-F0-9]`. -/
def isHexDigitChar (c : Char) : Bool :=
  c.isDigit || ('a' ≤ c && c ≤ 'f') || ('A' ≤ c && c ≤ 'F')

/-- `EVMService.isValidAddress`: the regex `^0x[a-fA-F0-9]{40}$`. -/
def evmIsValidAddress (address : String) : Bool :=
  address.length == 42 && address.data.take 2 == ['0', 'x'] &&
    (address.data.drop 2).all isHexDigitChar

/-- Base58 alphabet membership `[1-9A-HJ-NP-Za-km-z]`. -/
def isBase58Char (c : Char) : Bool :=
  ('1' ≤ c && c ≤ '9') || ('A' ≤ c && c ≤ 'H') || ('J' ≤ c && c ≤ 'N') ||
    ('P' ≤ c && c ≤ 'Z') || ('a' ≤ c && c ≤ 'k') || ('m' ≤ c && c ≤ 'z')

/-- `SolanaService.isValidAddress`: the regex `^[1-9A-HJ-NP-Za-km-z]{32,44}$`. -/
def solIsValidAddress (address : String) : Bool :=
  32 ≤ address.length && address.length ≤ 44 && address.data.all isBase58Char

/-- `EVMService.getNativeAsset`. -/
def getNativeAsset (chain : String) : String :=
  if chain = "eth" then "ETH"
  else if chain = "base" then "ETH"
  else if chain = "avax" then "AVAX"
  else "NATIVE"

/-- `EVMService.weiToEth`: convert wei (18 decimals) to the native unit and
round to 8 decimals with `Math.round`. The `weiHex === '0x0'` early return is
the `wei = 0` case. -/
def weiToEth (wei : ℕ) : ℚ :=
  if wei = 0 then 0
  else (jsRound ((wei : ℚ) / 10 ^ 18 * 10 ^ 8) : ℚ) / 10 ^ 8

/-- `SolanaService.lamportsToSol`: convert lamports (9 decimals, possibly
negative) to SOL and round to 8 decimals with `Math.round`. -/
def lamportsToSol (lamports : ℤ) : ℚ :=
  (jsRound ((lamports : ℚ) / 10 ^ 9 * 10 ^ 8) : ℚ) / 10 ^ 8

/-- Address-set membership test of `EVMService.scanNewBlocks`: the normalized
`from`/`to` of the transaction is in the normalized tracked-address list
(a falsy `from`/`to` contributes the empty string). -/
def matchesTrackedSet (normalizedAddresses : List String) (tx : EVMTransaction) : Bool :=
  let fromAddr := normalizeAddress tx.fromAddress
  let toAddr := (tx.toAddress.map normalizeAddress).getD ""
  normalizedAddresses.contains fromAddr || normalizedAddresses.contains toAddr

/-- Result of `EVMService.scanNewBlocks`. -/
structure ScanResult where
  transactions : List EVMTransaction
  newCursor : ℕ
deriving DecidableEq, Repr

/-- `EVMService.scanNewBlocks`: scan from `lastCursor + 1` up to the chain
head, capped at `maxBlocks = 50` blocks; matched transactions are tagged with
their block timestamp; per-block fetch failures are skipped. A failed
`eth_blockNumber` call makes the whole scan return `lastCursor` (outer
`catch`). -/
def scanNewBlocks (env : EvmEnv) (lastCursor : ℕ) (trackedAddresses : List String) :
    ScanResult :=
  match env.latestBlock with
  | none => ⟨[], lastCursor⟩
  | some latestBlock =>
    let fromBlock := lastCursor + 1
    if latestBlock < fromBlock then ⟨[], latestBlock⟩
    else
      let normalizedAddresses := trackedAddresses.map normalizeAddress
      let actualToBlock := min latestBlock (fromBlock + 50 - 1)
      let transactions :=
        (List.range' fromBlock (actualToBlock + 1 - fromBlock)).flatMap (fun blockNum =>
          match env.blocks blockNum with
          | none => []
          | some block =>
            (block.transactions.filter (matchesTrackedSet normalizedAddresses)).map
              (fun tx => { tx with timestamp := some block.timestamp }))
      ⟨transactions, actualToBlock⟩

/-- Single-address match test of `EVMService.scanBlocksForAddress`
(`tx.from && normalize(tx.from) === normalizedAddress`, same for `to`). -/
def matchesAddress (normalizedAddress : String) (tx : EVMTransaction) : Bool :=
  (tx.fromAddress ≠ "" && normalizeAddress tx.fromAddress == normalizedAddress) ||
    (match tx.toAddress with
     | some t => t ≠ "" && normalizeAddress t == normalizedAddress
     | none => false)

/-- `EVMService.scanBlocksForAddress`: scan `[fromBlock, min toBlock
(fromBlock + 100)]` for transactions touching the address, tagging each with
its block timestamp; failed block fetches are skipped. -/
def scanBlocksForAddress (env : EvmEnv) (address : String) (fromBlock toBlock : ℕ) :
    List EVMTransaction :=
  let normalizedAddress := normalizeAddress address
  let actualToBlock := min toBlock (fromBlock + 100)
  (List.range' fromBlock (actualToBlock + 1 - fromBlock)).flatMap (fun blockNum =>
    match env.blocks blockNum with
    | none => []
    | some block =>
      (block.transactions.filter (matchesAddress normalizedAddress)).map
        (fun tx => { tx with timestamp := some block.timestamp }))

/-- `EVMService.parseTransaction`: direction is `out` iff the normalized
sender equals the normalized target; amount converts the wei value; a missing
block timestamp falls back to the current time (`Date.now() / 1000`). -/
def evmParseTransaction (env : EvmEnv) (targetAddress : String) (tx : EVMTransaction)
    (chain : String) : TransactionActivity :=
  let normalizedTarget := normalizeAddress targetAddress
  let fromAddr := if tx.fromAddress = "" then "" else normalizeAddress tx.fromAddress
  let direction := if fromAddr = normalizedTarget then Direction.outgoing else Direction.incoming
  { hash := tx.hash
    timestamp := match tx.timestamp with
      | some t => (t : ℚ)
      | none => env.now
    fromAddress := tx.fromAddress
    toAddress := tx.toAddress.getD ""
    amount := weiToEth tx.value
    asset := getNativeAsset chain
    direction := direction }

/-- `EVMService.getRecentTransactions`: scan the last ~1000 blocks, keep the
last 20 matched transactions, parse, and reverse to most-recent-first. A
failed head fetch returns the empty list (outer `catch`). -/
def evmGetRecentTransactions (env : EvmEnv) (chain : String) (address : String) :
    List TransactionActivity :=
  match env.latestBlock with
  | none => []
  | some latestBlock =>
    let fromBlock := latestBlock - 1000
    let transactions := scanBlocksForAddress env address fromBlock latestBlock
    ((transactions.drop (transactions.length - 20)).map
        (fun tx => evmParseTransaction env address tx chain)).reverse

/-- `SolanaService.parseTransaction`: locate the target in the account keys,
take the pre/post balance delta, derive direction from its sign and amount as
the absolute converted delta. `none` models the `targetIndex === -1` and
`catch` returns. -/
def solParseTransaction (env : SolEnv) (targetAddress : String) (sig : SolanaSignature)
    (tx : SolanaTransaction) : Option TransactionActivity :=
  match tx.accountKeys.findIdx? (fun k => k == targetAddress) with
  | none => none
  | some targetIndex =>
    let preLamports := (tx.preBalances.get? targetIndex).getD 0
    let postLamports := (tx.postBalances.get? targetIndex).getD 0
    let balanceChange := postLamports - preLamports
    let direction := if 0 ≤ balanceChange then Direction.incoming else Direction.outgoing
    some { hash := sig.signature
           timestamp := match sig.blockTime with
             | some t => (t : ℚ)
             | none => env.now
           fromAddress := (tx.accountKeys.get? 0).getD ""
           toAddress := (tx.accountKeys.get? 1).getD targetAddress
           amount := |lamportsToSol balanceChange|
           asset := "SOL"
           direction := direction }

/-- `SolanaService.getRecentTransactions`: fetch up to 20 signatures, skip
failed transactions and unresolvable details, parse the rest in order. -/
def solGetRecentTransactions (env : SolEnv) (address : String) :
    List TransactionActivity :=
  ((env.signatures address).take 20).filterMap (fun sig =>
    if sig.err then none
    else
      match env.txs sig.signature with
      | none => none
      | some tx => solParseTransaction env address sig tx)

/-- `SolanaService.parseTransactionAmount`: the worker-side variant returning
only amount and direction. -/
def parseTransactionAmount (env : SolEnv) (targetAddress : String) (signature : String) :
    Option (ℚ × Direction) :=
  match env.txs signature with
  | none => none
  | some tx =>
    match tx.accountKeys.findIdx? (fun k => k == targetAddress) with
    | none => none
    | some targetIndex =>
      let preLamports := (tx.preBalances.get? targetIndex).getD 0
      let postLamports := (tx.postBalances.get? targetIndex).getD 0
      let balanceChange := postLamports - preLamports
      let direction := if 0 ≤ balanceChange then Direction.incoming else Direction.outgoing
      some (|lamportsToSol balanceChange|, direction)

/-- Result of `SolanaService.getNewSignatures`. -/
structure SigResult where
  signatures : List SolanaSignature
  newCursor : Option String
deriving DecidableEq, Repr

/-- `SolanaService.getNewSignatures`: fetch up to 50 recent signatures
(most recent first); the new batch is the prefix strictly before the cursor
signature, or everything when the cursor is absent or not found; the new
cursor is the head of the fetched page. -/
def getNewSignatures (env : SolEnv) (address : String) (lastCursor : Option String) :
    SigResult :=
  let signatures := (env.signatures address).take 50
  match signatures with
  | [] => ⟨[], lastCursor⟩
  | first :: _ =>
    let newSignatures :=
      match lastCursor with
      | none => signatures
      | some cursor =>
        match signatures.findIdx? (fun s => s.signature == cursor) with
        | some i => signatures.take i
        | none => signatures
    ⟨newSignatures, some first.signature⟩

/-- Sub-analysis result of the risk service: points awarded plus an optional
human-readable reason. -/
structure SubScore where
  score : ℚ
  reason : Option String
deriving DecidableEq, Repr

/-- Accumulated inter-element differences of a list, modelling the
`totalGap` loop of `analyzeVelocity` over the sorted timestamps. -/
def gaps : List ℚ → ℚ
  | [] => 0
  | [_] => 0
  | a :: b :: rest => (b - a) + gaps (b :: rest)

/-- `RiskService.analyzeVelocity`: mean inter-transaction gap over the sorted
timestamps; under 5 minutes with at least 10 records scores 25, under 30
minutes with at least 5 records scores 15. -/
def analyzeVelocity (activity : List TransactionActivity) : SubScore :=
  if activity.length < 2 then ⟨0, none⟩
  else
    let timestamps := List.insertionSort (· ≤ ·) (activity.map (·.timestamp))
    let totalGap := gaps timestamps
    let avgGapSeconds := totalGap / ((timestamps.length - 1 : ℕ) : ℚ)
    let avgGapMinutes := avgGapSeconds / 60
    if avgGapMinutes < 5 ∧ 10 ≤ activity.length then
      ⟨25, some "Very high transaction velocity (potential bot activity)"⟩
    else if avgGapMinutes < 30 ∧ 5 ≤ activity.length then
      ⟨15, some "High transaction frequency detected"⟩
    else ⟨0, none⟩

/-- Maximum of a list of rationals, modelling `Math.max(...amounts)` on the
nonempty lists where the source evaluates it. -/
def listMax : List ℚ → ℚ
  | [] => 0
  | a :: rest => rest.foldl max a

/-- `RiskService.analyzeSpikes`: a maximum amount above 10x the mean and
above 1 unit scores 20; above 5x the mean and 0.5 unit scores 10. The source
formats the amounts with `toFixed(4)`; the reason here embeds their exact
values instead. -/
def analyzeSpikes (activity : List TransactionActivity) : SubScore :=
  if activity.length < 3 then ⟨0, none⟩
  else
    let amounts := activity.map (·.amount)
    let avgAmount := amounts.sum / (amounts.length : ℚ)
    let maxAmount := listMax amounts
    if avgAmount * 10 < maxAmount ∧ 1 < maxAmount then
      ⟨20, some ("Large transaction spike detected (" ++ toString maxAmount ++ " vs avg "
        ++ toString avgAmount ++ ")")⟩
    else if avgAmount * 5 < maxAmount ∧ (0.5 : ℚ) < maxAmount then
      ⟨10, some "Unusual transaction size variation"⟩
    else ⟨0, none⟩

/-- `RiskService.analyzeWalletAge`: age of the earliest record relative to
the current wall-clock time `now` (`Date.now() / 1000` in the source). -/
def analyzeWalletAge (activity : List TransactionActivity) (now : ℚ) : SubScore :=
  if activity.length = 0 then ⟨0, none⟩
  else
    let timestamps := List.insertionSort (· ≤ ·) (activity.map (·.timestamp))
    let firstTx := timestamps.headD 0
    let ageSeconds := now - firstTx
    let ageDays := ageSeconds / 86400
    if ageDays < 7 ∧ 10 ≤ activity.length then
      ⟨20, some "New wallet with high activity (potential throwaway)"⟩
    else if ageDays < 30 ∧ 15 ≤ activity.length then
      ⟨10, some "Recently created wallet with significant activity"⟩
    else ⟨0, none⟩

/-- Round-number test of `analyzePatterns`: the amount is integral or equals
its own value rounded to two decimals (`toFixed(2)`, ties toward positive
infinity like `Math.round`). -/
def isRoundAmount (amt : ℚ) : Bool :=
  decide (amt = (⌊amt⌋ : ℚ)) || decide (amt = (jsRound (amt * 100) : ℚ) / 100)

/-- `RiskService.analyzePatterns`: more than 70 percent round-number amounts
over at least 5 records scores 15. -/
def analyzePatterns (activity : List TransactionActivity) : SubScore :=
  if activity.length < 5 then ⟨0, none⟩
  else
    let roundCount := activity.countP (fun tx => isRoundAmount tx.amount)
    let roundFrac := (roundCount : ℚ) / (activity.length : ℚ)
    if (0.7 : ℚ) < roundFrac then
      ⟨15, some "Many round-number transactions (possible automation)"⟩
    else ⟨0, none⟩

/-- `RiskService.analyzeFlows`: total outflow above 0.8x a positive total
inflow with at least 3 outbound records scores 20; more than 5 outbound and
no inbound records scores 15. -/
def analyzeFlows (activity : List TransactionActivity) : SubScore :=
  if activity.length < 3 then ⟨0, none⟩
  else
    let inflows := activity.filter (fun tx => tx.direction == Direction.incoming)
    let outflows := activity.filter (fun tx => tx.direction == Direction.outgoing)
    let totalIn := (inflows.map (·.amount)).sum
    let totalOut := (outflows.map (·.amount)).sum
    let inCount := inflows.length
    let outCount := outflows.length
    if 0 < totalIn ∧ totalIn * (0.8 : ℚ) < totalOut ∧ 3 ≤ outCount then
      ⟨20, some "Rapid outflow pattern detected (possible layering)"⟩
    else if 5 < outCount ∧ inCount = 0 then
      ⟨15, some "Only outflows detected (possible funds distribution)"⟩
    else ⟨0, none⟩

/-- `RiskService.getRiskLevel`: classification thresholds 70 / 50 / 25. -/
def getRiskLevel (score : ℚ) : RiskLevel :=
  if 70 ≤ score then RiskLevel.critical
  else if 50 ≤ score then RiskLevel.high
  else if 25 ≤ score then RiskLevel.medium
  else RiskLevel.low

/-- Result record of `RiskService.calculateRiskScore`. -/
structure RiskAnalysis where
  riskScore : ℚ
  riskLevel : RiskLevel
  reasons : List String
deriving DecidableEq, Repr

/-- `RiskService.calculateRiskScore`: sum the five sub-scores, clamp to
[0, 100], round, classify, and prefix the reasons with a record-count line.
`now` is the wall-clock time read by `analyzeWalletAge` (`Date.now()`). -/
def calculateRiskScore (recentActivity : List TransactionActivity) (now : ℚ) :
    RiskAnalysis :=
  if recentActivity.length = 0 then
    ⟨0, RiskLevel.low, ["No recent activity detected"]⟩
  else
    let velocityScore := analyzeVelocity recentActivity
    let spikeScore := analyzeSpikes recentActivity
    let ageScore := analyzeWalletAge recentActivity now
    let patternScore := analyzePatterns recentActivity
    let flowScore := analyzeFlows recentActivity
    let total := velocityScore.score + spikeScore.score + ageScore.score +
      patternScore.score + flowScore.score
    let score := min 100 (max 0 total)
    let riskLevel := getRiskLevel score
    let reasons := (toString recentActivity.length ++ " transactions analyzed") ::
      ([velocityScore, spikeScore, ageScore, patternScore, flowScore].filterMap (·.reason))
    ⟨(jsRound score : ℚ), riskLevel, reasons⟩

/-- `POST /check`: fetch recent activity through the chain reader for the
requested chain and truncate the returned list to 20 records
(`recentActivity.slice(0, 20)`). -/
def checkRecentActivity (eenv : EvmEnv) (senv : SolEnv) (chain : Chain)
    (targetAddress : String) : List TransactionActivity :=
  let recentActivity :=
    if chain = Chain.sol then solGetRecentTransactions senv targetAddress
    else evmGetRecentTransactions eenv (chainId chain) targetAddress
  recentActivity.take 20

/-- Prisma `findUnique` on the `AlertEvent` compound key
`chain_txHashOrSig_trackedAddressId`, as a membership test. -/
def hasAlert (alerts : List AlertEvent) (chain : String) (txHashOrSig : String)
    (trackedAddressId : ℕ) : Bool :=
  alerts.any (fun e => e.chain == chain && e.txHashOrSig == txHashOrSig &&
    e.trackedAddressId == trackedAddressId)

/-- Prisma `updateMany` setting `sentToTelegram` on the records matching the
dedup key. -/
def markSent (alerts : List AlertEvent) (chain : String) (txHashOrSig : String)
    (trackedAddressId : ℕ) : List AlertEvent :=
  alerts.map (fun e =>
    if e.chain == chain && e.txHashOrSig == txHashOrSig &&
        e.trackedAddressId == trackedAddressId
    then { e with sentToTelegram := true } else e)

/-- Body of the per-(transaction, tracked address) loop of `pollEvmChain`
(worker): membership check, direction, amount conversion, threshold filter,
dedup lookup, alert creation, Telegram send and delivered-flag update. -/
def processEvmTx (env : EvmEnv) (chain : String) (alerts : List AlertEvent)
    (tracked : TrackedAddress) (tx : EVMTransaction) : List AlertEvent :=
  let normalizedTracked := normalizeAddress tracked.address
  let fromAddr := if tx.fromAddress = "" then "" else normalizeAddress tx.fromAddress
  let toAddr := (tx.toAddress.map normalizeAddress).getD ""
  if fromAddr ≠ normalizedTracked ∧ toAddr ≠ normalizedTracked then alerts
  else
    let direction := if fromAddr = normalizedTracked then Direction.outgoing
      else Direction.incoming
    let amount := weiToEth tx.value
    let asset := getNativeAsset chain
    if amount < tracked.minAmount then alerts
    else if hasAlert alerts chain tx.hash tracked.id then alerts
    else
      let timestamp : ℚ := match tx.timestamp with
        | some t => (t : ℚ)
        | none => env.now
      let newAlerts := alerts ++
        [⟨tracked.id, chain, tx.hash, timestamp, direction, amount, asset, false⟩]
      if env.sendOk tx.hash tracked.id then markSent newAlerts chain tx.hash tracked.id
      else newAlerts

/-- Transaction-processing section of `pollEvmChain` (worker): the nested
`for (tx) { for (tracked) { ... } }` loops over the scanned transactions and
the chain's active tracked addresses. -/
def processEvmTxs (env : EvmEnv) (chain : String) (alerts : List AlertEvent)
    (transactions : List EVMTransaction) (trackedList : List TrackedAddress) :
    List AlertEvent :=
  transactions.foldl
    (fun acc tx => trackedList.foldl (fun acc2 tracked => processEvmTx env chain acc2 tracked tx) acc)
    alerts

/-- Database state of one EVM chain as seen by the worker: the chain's cursor
row, the tracked addresses and the alert ledger. -/
structure EvmDbState where
  chainCursor : Option ℕ
  trackedAddresses : List TrackedAddress
  alertEvents : List AlertEvent
deriving Repr

/-- `pollEvmChain` (worker): initialize a missing cursor at the chain head;
otherwise scan new blocks from the stored cursor, process the matched
transactions and write back the scanner's cursor value. A failed head fetch
aborts the cycle with no state change (caught in `pollEvmChains`). -/
def pollEvmChain (env : EvmEnv) (chain : String) (st : EvmDbState) : EvmDbState :=
  match st.chainCursor with
  | none =>
    match env.latestBlock with
    | none => st
    | some latestBlock => { st with chainCursor := some latestBlock }
  | some lastBlockNumber =>
    let trackedAddresses := st.trackedAddresses.filter
      (fun t => t.chain == chain && t.isActive)
    if trackedAddresses.isEmpty then st
    else
      let result := scanNewBlocks env lastBlockNumber (trackedAddresses.map (·.address))
      let alerts := processEvmTxs env chain st.alertEvents result.transactions trackedAddresses
      { st with alertEvents := alerts, chainCursor := some result.newCursor }

/-- Body of the per-signature loop of `pollSolana` (worker): skip failed
transactions, parse amount and direction, threshold filter, dedup lookup,
alert creation, Telegram send and delivered-flag update. -/
def processSolSig (env : SolEnv) (alerts : List AlertEvent) (tracked : TrackedAddress)
    (sig : SolanaSignature) : List AlertEvent :=
  if sig.err then alerts
  else
    match parseTransactionAmount env tracked.address sig.signature with
    | none => alerts
    | some (amount, direction) =>
      if amount < tracked.minAmount then alerts
      else if hasAlert alerts "sol" sig.signature tracked.id then alerts
      else
        let timestamp : ℚ := match sig.blockTime with
          | some t => (t : ℚ)
          | none => env.now
        let newAlerts := alerts ++
          [⟨tracked.id, "sol", sig.signature, timestamp, direction, amount, "SOL", false⟩]
        if env.sendOk sig.signature tracked.id then
          markSent newAlerts "sol" sig.signature tracked.id
        else newAlerts

/-- Alert-processing section of `pollSolana` (worker): for each active
tracked address, process the signatures reported as new by
`getNewSignatures` for its stored cursor. Cursor write-back is outside this
function; the idempotence claims below concern re-runs with unchanged
cursors. -/
def processSolana (env : SolEnv) (alerts : List AlertEvent)
    (trackedList : List TrackedAddress) : List AlertEvent :=
  trackedList.foldl
    (fun acc tracked =>
      (getNewSignatures env tracked.address tracked.lastSeenCursor).signatures.foldl
        (fun acc2 sig => processSolSig env acc2 tracked sig) acc)
    alerts

/-! ### Cursor behaviour of the EVM scanner (claims C1, C2) -/

/-- Height of the last contiguously fetched block of a scan that starts at
`fromBlock` and covers `count` blocks: the position just before the first
fetch failure (`fromBlock - 1` when the very first block already fails).
This formalizes the specification's "last contiguously fetched block". -/
def lastContiguousFetched (env : EvmEnv) (fromBlock : ℕ) : ℕ → ℕ
  | 0 => fromBlock - 1
  | count + 1 =>
    match env.blocks fromBlock with
    | none => fromBlock - 1
    | some _ => lastContiguousFetched env (fromBlock + 1) count

/-- The cursor candidate returned by `scanNewBlocks` is at least the stored
cursor provided the reported chain head is not behind the stored cursor. -/
theorem scanNewBlocks_cursor_ge (env : EvmEnv) (c : ℕ) (addrs : List String)
    (h : ∀ L, env.latestBlock = some L → c ≤ L) :
    c ≤ (scanNewBlocks env c addrs).newCursor := by
  unfold scanNewBlocks
  cases hL : env.latestBlock with
  | none => simp
  | some L =>
    have hcL := h L hL
    by_cases hlt : L < c + 1
    · simp only [hlt, if_true]
      omega
    · simp only [hlt, if_false]
      omega

/-- Worker state for the stale-head counterexample: cursor stored at block
100 while the chain head reports block 50. -/
def staleHeadEnv : EvmEnv :=
  ⟨some 50, fun _ => none, 0, fun _ _ => true⟩

/-- One active tracked address on chain `eth`. -/
def staleHeadTracked : TrackedAddress :=
  ⟨1, 1, "eth", "0xaaaaaaaaaaaaaaaaaaaaaaaaaaaaaaaaaaaaaaaa", "w", 0, true, none⟩

/-- Database state with the `eth` cursor stored at block 100. -/
def staleHeadState : EvmDbState :=
  ⟨some 100, [staleHeadTracked], []⟩

/-- Claim C1 (counterexample): with the cursor stored at block 100 and the
chain head reported at block 50, the poll writes cursor 50 back — the stored
chain cursor decreases, refuting "the cursor never decreases, including when
the reported chain head is below the stored cursor". -/
theorem pollEvmChain_cursor_decreases_on_stale_head :
    staleHeadState.chainCursor = some 100 ∧
      (pollEvmChain staleHeadEnv "eth" staleHeadState).chainCursor = some 50 ∧
      ¬ (100 : ℕ) ≤ 50 := by
  refine ⟨rfl, ?_, by decide⟩
  rfl

/-- Claim C1 (amended): the cursor written back by `pollEvmChain` never
decreases provided the reported chain head is not below the stored cursor
(or the head fetch fails, leaving the cycle aborted); when the head is below
the stored cursor the code instead resets the cursor down to the head. -/
theorem pollEvmChain_cursor_monotone_of_head_not_behind
    (env : EvmEnv) (chain : String) (st : EvmDbState) (c : ℕ)
    (hc : st.chainCursor = some c)
    (h : ∀ L, env.latestBlock = some L → c ≤ L) :
    ∃ c2, (pollEvmChain env chain st).chainCursor = some c2 ∧ c ≤ c2 := by
  unfold pollEvmChain
  rw [hc]
  by_cases hemp : (st.trackedAddresses.filter (fun t => t.chain == chain && t.isActive)).isEmpty
  · simp only [hemp, if_true]
    exact ⟨c, hc, le_refl c⟩
  · simp only [hemp, if_false]
    exact ⟨_, rfl, scanNewBlocks_cursor_ge env c _ h⟩

/-- Witness for the amended claim C1 at a concrete state: cursor 3, head 5. -/
theorem pollEvmChain_cursor_monotone_of_head_not_behind_witness :
    ∃ c2, (pollEvmChain (EvmEnv.mk (some 5) (fun _ => none) 0 (fun _ _ => true)) "eth"
      (EvmDbState.mk (some 3) [staleHeadTracked] [])).chainCursor = some c2 ∧ 3 ≤ c2 :=
  pollEvmChain_cursor_monotone_of_head_not_behind
    (EvmEnv.mk (some 5) (fun _ => none) 0 (fun _ _ => true)) "eth"
    (EvmDbState.mk (some 3) [staleHeadTracked] []) 3 rfl
    (fun L hL => by
      have : L = 5 := by simpa using hL.symm
      omega)

/-- Environment for the skipped-block counterexample: head at block 2, the
fetch of block 1 fails, block 2 fetches fine. -/
def skipBlockEnv : EvmEnv :=
  ⟨some 2, fun b => if b = 2 then some (EVMBlock.mk 1000 []) else none, 0, fun _ _ => true⟩

/-- Claim C2 (counterexample): scanning from cursor 0 with the fetch of
block 1 failing, `scanNewBlocks` still returns cursor candidate 2 — past the
never-fetched block 1 — while the last contiguously fetched block is 0. -/
theorem scanNewBlocks_cursor_passes_failed_block :
    skipBlockEnv.blocks 1 = none ∧
      (scanNewBlocks skipBlockEnv 0
        ["0xaaaaaaaaaaaaaaaaaaaaaaaaaaaaaaaaaaaaaaaa"]).newCursor = 2 ∧
      lastContiguousFetched skipBlockEnv 1 2 = 0 ∧
      ¬ (scanNewBlocks skipBlockEnv 0
        ["0xaaaaaaaaaaaaaaaaaaaaaaaaaaaaaaaaaaaaaaaa"]).newCursor ≤
          lastContiguousFetched skipBlockEnv 1 2 := by
  refine ⟨rfl, rfl, rfl, by decide⟩

/-- Claim C2 (amended): whenever the head is ahead of the stored cursor, the
cursor candidate returned by `scanNewBlocks` equals
`min head (cursor + 50)` — the full capped window end — independently of
which block fetches inside the window failed; failed blocks are skipped and
the cursor advances past them. -/
theorem scanNewBlocks_cursor_ignores_fetch_failures
    (env : EvmEnv) (c : ℕ) (addrs : List String) (L : ℕ)
    (hL : env.latestBlock = some L) (hcl : c < L) :
    (scanNewBlocks env c addrs).newCursor = min L (c + 50) := by
  unfold scanNewBlocks
  rw [hL]
  have hlt : ¬ L < c + 1 := by omega
  simp only [hlt, if_false]
  have : c + 1 + 50 - 1 = c + 50 := by omega
  simp [this]

/-- Witness for the amended claim C2: head 10, cursor 4, every block fetch
failing; the cursor candidate is min 10 54 = 10. -/
theorem scanNewBlocks_cursor_ignores_fetch_failures_witness :
    (scanNewBlocks (EvmEnv.mk (some 10) (fun _ => none) 0 (fun _ _ => true)) 4
      []).newCursor = min 10 (4 + 50) :=
  scanNewBlocks_cursor_ignores_fetch_failures
    (EvmEnv.mk (some 10) (fun _ => none) 0 (fun _ _ => true)) 4 [] 10 rfl (by decide)

/-! ### Registration limits (claim C3) -/

/-- A user row (Prisma model `User`). -/
structure User where
  id : ℕ
  telegramUserId : String
deriving DecidableEq, Repr

/-- Registry state: users, tracked addresses, and fresh-id counters standing
in for the database's autoincrement. -/
structure RegState where
  users : List User
  tracked : List TrackedAddress
  nextUserId : ℕ
  nextTrackedId : ℕ
deriving Repr

/-- The configured limits (`config.limits`). -/
structure Limits where
  maxTrackedPerUser : ℕ
  maxTrackedTotal : ℕ
deriving DecidableEq, Repr

/-- Body of `POST /tracking/add-new`. -/
structure AddNewRequest where
  telegramUserId : String
  chain : String
  address : String
  label : String
  minAmount : Option ℚ
deriving Repr

/-- Outcome of a registration attempt: an error response or the created
tracked-address id. -/
inductive RegOutcome where
  | rejected (error : String)
  | created (trackedId : ℕ)
deriving DecidableEq, Repr

/-- Number of active tracked addresses owned by one user
(`user.trackedAddresses` with the `isActive` filter). -/
def activeCountForUser (st : RegState) (userId : ℕ) : ℕ :=
  (st.tracked.filter (fun t => t.userId == userId && t.isActive)).length

/-- Number of active tracked addresses system-wide
(`prisma.trackedAddress.count({where: {isActive: true}})`). -/
def activeCountTotal (st : RegState) : ℕ :=
  (st.tracked.filter (fun t => t.isActive)).length

/-- Find-or-create of the requesting user shared by both registration paths
(`prisma.user.findUnique` then `create`). -/
def findOrCreateUser (st : RegState) (telegramUserId : String) : User × RegState :=
  match st.users.find? (fun u => u.telegramUserId == telegramUserId) with
  | some u => (u, st)
  | none =>
    let u : User := ⟨st.nextUserId, telegramUserId⟩
    (u, { st with users := st.users ++ [u], nextUserId := st.nextUserId + 1 })

/-- `POST /tracking/add-new` (`tracking.ts`): field presence, chain and
address validation, threshold sign check, then per-user limit, system-wide
limit and active-duplicate checks before creation. `initialCursor` stands for
the cursor fetched from the chain at registration time. -/
def trackingAddNew (limits : Limits) (initialCursor : String) (st : RegState)
    (req : AddNewRequest) : RegOutcome × RegState :=
  if req.telegramUserId = "" ∨ req.chain = "" ∨ req.address = "" ∨ req.label = "" then
    (RegOutcome.rejected "Missing required fields", st)
  else if ¬ (req.chain = "eth" ∨ req.chain = "base" ∨ req.chain = "avax" ∨ req.chain = "sol") then
    (RegOutcome.rejected "Invalid chain", st)
  else if ¬ (if req.chain = "sol" then solIsValidAddress req.address
             else evmIsValidAddress req.address) then
    (RegOutcome.rejected "Invalid address format", st)
  else if req.minAmount.getD 0 < 0 then
    (RegOutcome.rejected "minAmount must be >= 0", st)
  else
    let found := findOrCreateUser st req.telegramUserId
    let user := found.1
    let st1 := found.2
    if limits.maxTrackedPerUser ≤ activeCountForUser st1 user.id then
      (RegOutcome.rejected "Maximum tracked addresses per user reached", st1)
    else if limits.maxTrackedTotal ≤ activeCountTotal st1 then
      (RegOutcome.rejected "Maximum total tracked addresses reached", st1)
    else
      let storedAddress := if req.chain = "sol" then req.address
        else normalizeAddress req.address
      if st1.tracked.any (fun t => t.userId == user.id && t.chain == req.chain &&
          t.address == storedAddress && t.isActive) then
        (RegOutcome.rejected "This address is already tracked", st1)
      else
        let newTracked : TrackedAddress := ⟨st1.nextTrackedId, user.id, req.chain,
          storedAddress, req.label, req.minAmount.getD 0, true, some initialCursor⟩
        (RegOutcome.created st1.nextTrackedId,
          { st1 with tracked := st1.tracked ++ [newTracked],
                     nextTrackedId := st1.nextTrackedId + 1 })

/-- Final (`min-amount`) step of the Telegram interactive add-new flow
(`handleInteractiveFlow`): threshold parse check, find-or-create user,
per-user limit check, then creation. The chain and address were validated in
earlier flow steps; `minAmount = none` models a `NaN` parse. Unlike the HTTP
route, this path has no system-wide limit check and no duplicate check. -/
def telegramAddNew (limits : Limits) (initialCursor : String) (st : RegState)
    (telegramUserId chain address label : String) (minAmount : Option ℚ) :
    RegOutcome × RegState :=
  match minAmount with
  | none => (RegOutcome.rejected "Invalid amount", st)
  | some minAmountValue =>
    if minAmountValue < 0 then (RegOutcome.rejected "Invalid amount", st)
    else
      let found := findOrCreateUser st telegramUserId
      let user := found.1
      let st1 := found.2
      if limits.maxTrackedPerUser ≤ activeCountForUser st1 user.id then
        (RegOutcome.rejected "Maximum tracked addresses reached", st1)
      else
        let storedAddress := if chain = "sol" then address else normalizeAddress address
        let newTracked : TrackedAddress := ⟨st1.nextTrackedId, user.id, chain,
          storedAddress, label, minAmountValue, true, some initialCursor⟩
        (RegOutcome.created st1.nextTrackedId,
          { st1 with tracked := st1.tracked ++ [newTracked],
                     nextTrackedId := st1.nextTrackedId + 1 })

/-- Limits for the C3 counterexample: 20 per user, 1 system-wide. -/
def cx3Limits : Limits := ⟨20, 1⟩

/-- Registry state at the system-wide limit: one active entity, owned by a
different user than the one registering. -/
def cx3State : RegState :=
  ⟨[⟨1, "1"⟩, ⟨2, "2"⟩],
   [⟨10, 2, "eth", "0xaaaaaaaaaaaaaaaaaaaaaaaaaaaaaaaaaaaaaaaa", "w", 0, true, none⟩],
   3, 11⟩

/-- Claim C3 (counterexample): with the system already holding
`maxTrackedTotal` active entities, the Telegram interactive flow still
creates a new entity for a user below the per-user limit — the system-wide
limit is not enforced on that path. -/
theorem telegramAddNew_exceeds_total_limit :
    activeCountTotal cx3State = cx3Limits.maxTrackedTotal ∧
      (telegramAddNew cx3Limits "123" cx3State "1" "eth"
        "0xbbbbbbbbbbbbbbbbbbbbbbbbbbbbbbbbbbbbbbbb" "lbl" (some 0)).1 =
        RegOutcome.created 11 ∧
      activeCountTotal (telegramAddNew cx3Limits "123" cx3State "1" "eth"
        "0xbbbbbbbbbbbbbbbbbbbbbbbbbbbbbbbbbbbbbbbb" "lbl" (some 0)).2 = 2 := by
  refine ⟨rfl, rfl, rfl⟩

/-- Claim C3 (amended): the HTTP route rejects and creates nothing when the
requesting user already has `maxTrackedPerUser` active entities or the
system already has `maxTrackedTotal` active entities; the Telegram
interactive flow enforces only the per-user limit (its registrations can
exceed the system-wide limit, as the counterexample shows). -/
theorem addNew_limit_enforcement
    (limits : Limits) (cursor : String) (st : RegState) (req : AddNewRequest)
    (tgId chain address label : String) (minAmount : Option ℚ) (u : User)
    (hu : st.users.find? (fun w => w.telegramUserId == req.telegramUserId) = some u)
    (hu2 : st.users.find? (fun w => w.telegramUserId == tgId) = some u) :
    (limits.maxTrackedPerUser ≤ activeCountForUser st u.id →
        (∃ e, (trackingAddNew limits cursor st req).1 = RegOutcome.rejected e) ∧
        (trackingAddNew limits cursor st req).2.tracked = st.tracked) ∧
      (limits.maxTrackedTotal ≤ activeCountTotal st →
        (∃ e, (trackingAddNew limits cursor st req).1 = RegOutcome.rejected e) ∧
        (trackingAddNew limits cursor st req).2.tracked = st.tracked) ∧
      (limits.maxTrackedPerUser ≤ activeCountForUser st u.id →
        (∃ e, (telegramAddNew limits cursor st tgId chain address label minAmount).1 =
          RegOutcome.rejected e) ∧
        (telegramAddNew limits cursor st tgId chain address label minAmount).2.tracked =
          st.tracked) := by
  have hfc : findOrCreateUser st req.telegramUserId = (u, st) := by
    unfold findOrCreateUser
    rw [hu]
  have hfc2 : findOrCreateUser st tgId = (u, st) := by
    unfold findOrCreateUser
    rw [hu2]
  refine ⟨?_, ?_, ?_⟩
  · intro hlim
    unfold trackingAddNew
    simp only [hfc]
    split_ifs <;> exact ⟨⟨_, rfl⟩, rfl⟩
  · intro hlim
    unfold trackingAddNew
    simp only [hfc]
    split_ifs <;> exact ⟨⟨_, rfl⟩, rfl⟩
  · intro hlim
    unfold telegramAddNew
    match minAmount with
    | none => exact ⟨⟨_, rfl⟩, rfl⟩
    | some v =>
      simp only [hfc2]
      split_ifs <;> exact ⟨⟨_, rfl⟩, rfl⟩

/-- Witness for the amended claim C3: limits (1, 1), one user already owning
one active entity; the HTTP route rejects and leaves the tracked set
unchanged. -/
theorem addNew_limit_enforcement_witness :
    (∃ e, (trackingAddNew (Limits.mk 1 1) "0"
        (RegState.mk [⟨1, "1"⟩]
          [⟨10, 1, "eth", "0xaaaaaaaaaaaaaaaaaaaaaaaaaaaaaaaaaaaaaaaa", "w", 0, true, none⟩]
          2 11)
        (AddNewRequest.mk "1" "eth" "0xbbbbbbbbbbbbbbbbbbbbbbbbbbbbbbbbbbbbbbbb" "l"
          (some 0))).1 = RegOutcome.rejected e) ∧
      (trackingAddNew (Limits.mk 1 1) "0"
        (RegState.mk [⟨1, "1"⟩]
          [⟨10, 1, "eth", "0xaaaaaaaaaaaaaaaaaaaaaaaaaaaaaaaaaaaaaaaa", "w", 0, true, none⟩]
          2 11)
        (AddNewRequest.mk "1" "eth" "0xbbbbbbbbbbbbbbbbbbbbbbbbbbbbbbbbbbbbbbbb" "l"
          (some 0))).2.tracked =
        [⟨10, 1, "eth", "0xaaaaaaaaaaaaaaaaaaaaaaaaaaaaaaaaaaaaaaaa", "w", 0, true, none⟩] :=
  (addNew_limit_enforcement (Limits.mk 1 1) "0"
    (RegState.mk [⟨1, "1"⟩]
      [⟨10, 1, "eth", "0xaaaaaaaaaaaaaaaaaaaaaaaaaaaaaaaaaaaaaaaa", "w", 0, true, none⟩]
      2 11)
    (AddNewRequest.mk "1" "eth" "0xbbbbbbbbbbbbbbbbbbbbbbbbbbbbbbbbbbbbbbbb" "l" (some 0))
    "1" "eth" "0xbbbbbbbbbbbbbbbbbbbbbbbbbbbbbbbbbbbbbbbb" "l" (some 0) ⟨1, "1"⟩
    rfl rfl).1 (by decide)

/-! ### Native-amount conversion rounding (claim C7) -/

/-- Solana environment for the rounding counterexample: one transaction in
which the target account's balance drops by 25 lamports. -/
def cx7Env : SolEnv :=
  ⟨fun _ => [], fun s => if s = "sig1" then some ⟨["A"], [25], [0]⟩ else none, 0,
    fun _ _ => true⟩

/-- Claim C7 (counterexample): for the balance delta of -25 lamports the
worker alerts `|lamportsToSol (-25)| = 0.00000002` SOL, while
round-half-away-from-zero of the converted delta taken in absolute value is
`0.00000003` — `Math.round` rounds the negative half-tie toward zero. -/
theorem lamports_negative_half_tie_not_half_away :
    parseTransactionAmount cx7Env "A" "sig1" =
        some (|lamportsToSol (-25)|, Direction.outgoing) ∧
      |lamportsToSol (-25)| ≠
        |(halfAwayFromZero ((-25 : ℚ) / 10 ^ 9 * 10 ^ 8) : ℚ)| / 10 ^ 8 := by
  constructor
  · rfl
  · have h1 : |lamportsToSol (-25)| = 1 / 50000000 := by
      norm_num [lamportsToSol, jsRound]
    have h2 : |(halfAwayFromZero ((-25 : ℚ) / 10 ^ 9 * 10 ^ 8) : ℚ)| / 10 ^ 8 =
        3 / 100000000 := by
      norm_num [halfAwayFromZero]
    rw [h1, h2]
    norm_num

/-- Claim C7 (amended): `weiToEth` agrees with round-half-away-from-zero to 8
decimals on every (non-negative) wei value, and the Solana amount
`|lamportsToSol d|` agrees with the absolute half-away-from-zero rounding of
the converted delta for every delta except the negative half-ties
(`d < 0` with `d % 10 = 5`), where `Math.round` rounds toward zero instead. -/
theorem conversion_rounding (wei : ℕ) (d : ℤ) (hd : 0 ≤ d ∨ d % 10 ≠ 5) :
    weiToEth wei = (halfAwayFromZero ((wei : ℚ) / 10 ^ 18 * 10 ^ 8) : ℚ) / 10 ^ 8 ∧
      |lamportsToSol d| = |(halfAwayFromZero ((d : ℚ) / 10 ^ 9 * 10 ^ 8) : ℚ)| / 10 ^ 8 := by
  constructor
  · by_cases h0 : wei = 0
    · subst h0
      rw [weiToEth]
      norm_num [halfAwayFromZero]
    · have hx : (0 : ℚ) ≤ (wei : ℚ) / 10 ^ 18 * 10 ^ 8 := by positivity
      rw [weiToEth, if_neg h0, halfAwayFromZero, if_pos hx]
      rfl
  · have hx : ((d : ℚ) / 10 ^ 9 * 10 ^ 8) = (d : ℚ) / 10 := by ring
    rw [lamportsToSol, hx]
    by_cases hdp : (0 : ℚ) ≤ (d : ℚ) / 10
    · rw [halfAwayFromZero, if_pos hdp]
      simp only [jsRound]
      rw [abs_div]
      norm_num
    · have hdneg : d < 0 := by
        by_contra hcon
        push_neg at hcon
        exact hdp (div_nonneg (by exact_mod_cast hcon) (by norm_num))
      have hmod : d % 10 ≠ 5 := by
        rcases hd with h | h
        · omega
        · exact h
      have hA : jsRound ((d : ℚ) / 10) = (d + 5) / 10 := by
        simp only [jsRound]
        have he : (d : ℚ) / 10 + 1 / 2 = ((d + 5 : ℤ) : ℚ) / ((10 : ℕ) : ℚ) := by
          push_cast
          ring
        rw [he, Rat.floor_intCast_div_natCast]
        norm_num
      have hB : ⌊-((d : ℚ) / 10) + 1 / 2⌋ = (-d + 5) / 10 := by
        have he : -((d : ℚ) / 10) + 1 / 2 = ((-d + 5 : ℤ) : ℚ) / ((10 : ℕ) : ℚ) := by
          push_cast
          ring
        rw [he, Rat.floor_intCast_div_natCast]
        norm_num
      rw [halfAwayFromZero, if_neg hdp, hA, hB]
      have hAB : (d + 5) / 10 = -((-d + 5) / 10) := by omega
      rw [hAB, abs_div]
      norm_num

/-- Witness for the amended claim C7 at wei 2 and delta -7 lamports (not a
half-tie). -/
theorem conversion_rounding_witness :
    weiToEth 2 = (halfAwayFromZero (((2 : ℕ) : ℚ) / 10 ^ 18 * 10 ^ 8) : ℚ) / 10 ^ 8 ∧
      |lamportsToSol (-7)| =
        |(halfAwayFromZero (((-7 : ℤ) : ℚ) / 10 ^ 9 * 10 ^ 8) : ℚ)| / 10 ^ 8 :=
  conversion_rounding 2 (-7) (Or.inr (by decide))

/-! ### Threshold filter boundary (claim C6) -/

/-- Converted EVM amounts are never negative. -/
theorem weiToEth_nonneg (wei : ℕ) : 0 ≤ weiToEth wei := by
  rw [weiToEth]
  split_ifs with h
  · exact le_refl 0
  · have h1 : (0 : ℚ) ≤ ((jsRound ((wei : ℚ) / 10 ^ 18 * 10 ^ 8)) : ℚ) := by
      have : (0 : ℤ) ≤ jsRound ((wei : ℚ) / 10 ^ 18 * 10 ^ 8) := by
        rw [jsRound]
        have hx : (0 : ℚ) ≤ (wei : ℚ) / 10 ^ 18 * 10 ^ 8 := by positivity
        have := Int.floor_nonneg.mpr (by linarith : (0 : ℚ) ≤ (wei : ℚ) / 10 ^ 18 * 10 ^ 8 + 1 / 2)
        exact this
      exact_mod_cast this
    exact div_nonneg h1 (by norm_num)

/-- Parsed Solana amounts are never negative (they are absolute values). -/
theorem parseTransactionAmount_nonneg (env : SolEnv) (address signature : String)
    (amount : ℚ) (direction : Direction)
    (h : parseTransactionAmount env address signature = some (amount, direction)) :
    0 ≤ amount := by
  unfold parseTransactionAmount at h
  split at h
  · exact absurd h (by simp)
  · split at h
    · exact absurd h (by simp)
    · simp only [Option.some.injEq, Prod.mk.injEq] at h
      rw [← h.1]
      exact abs_nonneg _


/-- Claim C6: the threshold filter drops a record exactly when its amount is
strictly below the entity's configured minimum. Conjuncts: (1) an EVM record
with amount below the minimum is dropped — no alert, no error; (2) a
matching, non-duplicate EVM record with amount at or above the minimum (in
particular, exactly equal to it) creates exactly one alert; (3) EVM amounts
are never negative, so a configured minimum of 0 never triggers the drop —
zero-value transfers included; (4) a matching zero-minimum, non-duplicate
EVM record is always alerted; (5) a Solana record with amount below the
minimum is dropped; (6) a non-failed, non-duplicate Solana record with
amount at or above the minimum creates exactly one alert; (7) Solana amounts
are never negative. -/
theorem threshold_filter_boundary :
    (∀ (env : EvmEnv) (chain : String) (alerts : List AlertEvent)
        (tracked : TrackedAddress) (tx : EVMTransaction),
        weiToEth tx.value < tracked.minAmount →
        processEvmTx env chain alerts tracked tx = alerts) ∧
      (∀ (env : EvmEnv) (chain : String) (alerts : List AlertEvent)
          (tracked : TrackedAddress) (tx : EVMTransaction),
          ¬ ((if tx.fromAddress = "" then "" else normalizeAddress tx.fromAddress) ≠
                normalizeAddress tracked.address ∧
              (tx.toAddress.map normalizeAddress).getD "" ≠
                normalizeAddress tracked.address) →
          tracked.minAmount ≤ weiToEth tx.value →
          hasAlert alerts chain tx.hash tracked.id = false →
          (processEvmTx env chain alerts tracked tx).length = alerts.length + 1) ∧
      (∀ (wei : ℕ), ¬ weiToEth wei < 0) ∧
      (∀ (env : EvmEnv) (chain : String) (alerts : List AlertEvent)
          (tracked : TrackedAddress) (tx : EVMTransaction),
          tracked.minAmount = 0 →
          ¬ ((if tx.fromAddress = "" then "" else normalizeAddress tx.fromAddress) ≠
                normalizeAddress tracked.address ∧
              (tx.toAddress.map normalizeAddress).getD "" ≠
                normalizeAddress tracked.address) →
          hasAlert alerts chain tx.hash tracked.id = false →
          (processEvmTx env chain alerts tracked tx).length = alerts.length + 1) ∧
      (∀ (env : SolEnv) (alerts : List AlertEvent) (tracked : TrackedAddress)
          (sig : SolanaSignature) (amount : ℚ) (direction : Direction),
          parseTransactionAmount env tracked.address sig.signature =
            some (amount, direction) →
          amount < tracked.minAmount →
          processSolSig env alerts tracked sig = alerts) ∧
      (∀ (env : SolEnv) (alerts : List AlertEvent) (tracked : TrackedAddress)
          (sig : SolanaSignature) (amount : ℚ) (direction : Direction),
          sig.err = false →
          parseTransactionAmount env tracked.address sig.signature =
            some (amount, direction) →
          tracked.minAmount ≤ amount →
          hasAlert alerts "sol" sig.signature tracked.id = false →
          (processSolSig env alerts tracked sig).length = alerts.length + 1) ∧
      (∀ (env : SolEnv) (address signature : String) (amount : ℚ)
          (direction : Direction),
          parseTransactionAmount env address signature = some (amount, direction) →
          0 ≤ amount) := by
  refine ⟨?_, ?_, ?_, ?_, ?_, ?_, ?_⟩
  · intro env chain alerts tracked tx hlt
    simp [processEvmTx, hlt]
  · intro env chain alerts tracked tx hmatch hle ha
    have hnl : ¬ weiToEth tx.value < tracked.minAmount := not_lt.mpr hle
    simp [processEvmTx, hmatch, hnl, ha, markSent, apply_ite List.length]
  · intro wei
    exact not_lt.mpr (weiToEth_nonneg wei)
  · intro env chain alerts tracked tx hmin hmatch ha
    have hnl : ¬ weiToEth tx.value < tracked.minAmount := by
      rw [hmin]
      exact not_lt.mpr (weiToEth_nonneg tx.value)
    simp [processEvmTx, hmatch, hnl, ha, markSent, apply_ite List.length]
  · intro env alerts tracked sig amount direction hparse hlt
    simp [processSolSig, hparse, hlt]
  · intro env alerts tracked sig amount direction herr hparse hle ha
    have hnl : ¬ amount < tracked.minAmount := not_lt.mpr hle
    simp [processSolSig, herr, hparse, hnl, ha, markSent, apply_ite List.length]
  · exact parseTransactionAmount_nonneg

/-- Witness for claim C6: a transfer of 0 wei against a minimum of 1 is
dropped without creating an alert. -/
theorem threshold_filter_boundary_witness :
    processEvmTx (EvmEnv.mk (some 0) (fun _ => none) 0 (fun _ _ => true)) "eth" []
      (TrackedAddress.mk 1 1 "eth" "0xaa" "w" 1 true none)
      (EVMTransaction.mk "h" "0xbb" none 0 none) = [] :=
  threshold_filter_boundary.1 (EvmEnv.mk (some 0) (fun _ => none) 0 (fun _ _ => true))
    "eth" [] (TrackedAddress.mk 1 1 "eth" "0xaa" "w" 1 true none)
    (EVMTransaction.mk "h" "0xbb" none 0 none) (by decide)

/-! ### Alert deduplication idempotence (claim C5) -/

/-- `markSent` only flips the delivered flag, so dedup-key lookups are
unchanged by it. -/
theorem hasAlert_markSent (a : List AlertEvent) (c0 h0 : String) (i0 : ℕ)
    (c h : String) (i : ℕ) :
    hasAlert (markSent a c0 h0 i0) c h i = hasAlert a c h i := by
  induction a with
  | nil => rfl
  | cons e es ih =>
    unfold markSent at ih ⊢
    unfold hasAlert at ih ⊢
    simp only [List.map_cons, List.any_cons]
    rw [ih]
    congr 1
    split_ifs <;> rfl

/-- A step function on the alert ledger that never removes dedup keys. -/
def StepMono {α : Type} (step : List AlertEvent → α → List AlertEvent) : Prop :=
  ∀ (a : List AlertEvent) (x : α) (c h : String) (i : ℕ),
    hasAlert a c h i = true → hasAlert (step a x) c h i = true

/-- A step function that establishes all the keys listed by `K` for the item
it processes. -/
def StepEnsures {α : Type} (step : List AlertEvent → α → List AlertEvent)
    (K : α → List (String × String × ℕ)) : Prop :=
  ∀ (a : List AlertEvent) (x : α) (k : String × String × ℕ), k ∈ K x →
    hasAlert (step a x) k.1 k.2.1 k.2.2 = true

/-- A step function that is the identity once all the keys listed by `K` for
the item are already present. -/
def StepNoop {α : Type} (step : List AlertEvent → α → List AlertEvent)
    (K : α → List (String × String × ℕ)) : Prop :=
  ∀ (a : List AlertEvent) (x : α),
    (∀ k ∈ K x, hasAlert a k.1 k.2.1 k.2.2 = true) → step a x = a

/-- Folding a key-monotone step preserves present keys. -/
theorem foldl_hasAlert_mono {α : Type} {step : List AlertEvent → α → List AlertEvent}
    (hm : StepMono step) (l : List α) (a : List AlertEvent) (c h : String) (i : ℕ)
    (ha : hasAlert a c h i = true) : hasAlert (l.foldl step a) c h i = true := by
  induction l generalizing a with
  | nil => exact ha
  | cons x xs ih => exact ih _ (hm a x c h i ha)

/-- After folding a key-monotone, key-ensuring step over a list, every key of
every processed item is present. -/
theorem foldl_hasAlert_ensures {α : Type} {step : List AlertEvent → α → List AlertEvent}
    {K : α → List (String × String × ℕ)}
    (hm : StepMono step) (he : StepEnsures step K) (l : List α) (a : List AlertEvent) :
    ∀ x ∈ l, ∀ k ∈ K x, hasAlert (l.foldl step a) k.1 k.2.1 k.2.2 = true := by
  induction l generalizing a with
  | nil => intro x hx; cases hx
  | cons y ys ih =>
    intro x hx k hk
    cases hx with
    | head => exact foldl_hasAlert_mono hm ys _ _ _ _ (he a y k hk)
    | tail _ hmem => exact ih _ x hmem k hk

/-- Folding a step that skips already-present keys over items whose keys are
all present changes nothing. -/
theorem foldl_hasAlert_noop {α : Type} {step : List AlertEvent → α → List AlertEvent}
    {K : α → List (String × String × ℕ)}
    (hn : StepNoop step K) (l : List α) (a : List AlertEvent)
    (h : ∀ x ∈ l, ∀ k ∈ K x, hasAlert a k.1 k.2.1 k.2.2 = true) : l.foldl step a = a := by
  induction l with
  | nil => rfl
  | cons y ys ih =>
    have hy : step a y = a := hn a y (fun k hk => h y (List.mem_cons_self y ys) k hk)
    rw [List.foldl_cons, hy]
    exact ih (fun x hx k hk => h x (List.mem_cons_of_mem y hx) k hk)

/-- Folding a dedup-guarded step a second time over the same items changes
nothing. -/
theorem foldl_hasAlert_idem {α : Type} {step : List AlertEvent → α → List AlertEvent}
    {K : α → List (String × String × ℕ)}
    (hm : StepMono step) (he : StepEnsures step K) (hn : StepNoop step K)
    (l : List α) (a : List AlertEvent) :
    l.foldl step (l.foldl step a) = l.foldl step a :=
  foldl_hasAlert_noop hn l _ (fun x hx k hk => foldl_hasAlert_ensures hm he l a x hx k hk)

/-- The qualification test of the EVM per-pair loop: address match and
threshold pass. -/
def evmQualifies (tracked : TrackedAddress) (tx : EVMTransaction) : Bool :=
  decide (¬ ((if tx.fromAddress = "" then "" else normalizeAddress tx.fromAddress) ≠
        normalizeAddress tracked.address ∧
      (tx.toAddress.map normalizeAddress).getD "" ≠ normalizeAddress tracked.address)) &&
    decide (¬ weiToEth tx.value < tracked.minAmount)

/-- Key lookup distributes over ledger concatenation. -/
theorem hasAlert_append (a b : List AlertEvent) (c h : String) (i : ℕ) :
    hasAlert (a ++ b) c h i = (hasAlert a c h i || hasAlert b c h i) := by
  unfold hasAlert
  exact List.any_append

/-- `processEvmTx` never removes dedup keys. -/
theorem processEvmTx_mono (env : EvmEnv) (chain : String) (a : List AlertEvent)
    (tracked : TrackedAddress) (tx : EVMTransaction) (c h : String) (i : ℕ)
    (ha : hasAlert a c h i = true) :
    hasAlert (processEvmTx env chain a tracked tx) c h i = true := by
  simp only [processEvmTx]
  split_ifs <;>
    first
      | exact ha
      | (rw [hasAlert_markSent, hasAlert_append, ha]; rfl)
      | (rw [hasAlert_append, ha]; rfl)

/-- `processEvmTx` leaves a qualifying pair's dedup key present. -/
theorem processEvmTx_ensures (env : EvmEnv) (chain : String) (a : List AlertEvent)
    (tracked : TrackedAddress) (tx : EVMTransaction)
    (hq : evmQualifies tracked tx = true) :
    hasAlert (processEvmTx env chain a tracked tx) chain tx.hash tracked.id = true := by
  unfold evmQualifies at hq
  rw [Bool.and_eq_true, decide_eq_true_iff, decide_eq_true_iff] at hq
  obtain ⟨hmq, htq⟩ := hq
  simp only [processEvmTx]
  rw [if_neg hmq, if_neg htq]
  by_cases hd : hasAlert a chain tx.hash tracked.id = true
  · rw [if_pos hd]
    exact hd
  · rw [if_neg hd]
    split_ifs <;>
      first
        | (rw [hasAlert_markSent, hasAlert_append]
           simp [hasAlert])
        | (rw [hasAlert_append]
           simp [hasAlert])

/-- `processEvmTx` is the identity once the qualifying key is present (and
always when the pair does not qualify). -/
theorem processEvmTx_noop (env : EvmEnv) (chain : String) (a : List AlertEvent)
    (tracked : TrackedAddress) (tx : EVMTransaction)
    (h : evmQualifies tracked tx = true → hasAlert a chain tx.hash tracked.id = true) :
    processEvmTx env chain a tracked tx = a := by
  by_cases hq : evmQualifies tracked tx = true
  · have hd := h hq
    unfold evmQualifies at hq
    rw [Bool.and_eq_true, decide_eq_true_iff, decide_eq_true_iff] at hq
    simp only [processEvmTx]
    rw [if_neg hq.1, if_neg hq.2, if_pos hd]
  · unfold evmQualifies at hq
    rw [Bool.and_eq_true, decide_eq_true_iff, decide_eq_true_iff] at hq
    simp only [processEvmTx]
    by_cases hA : ((if tx.fromAddress = "" then "" else normalizeAddress tx.fromAddress) ≠
          normalizeAddress tracked.address ∧
        (tx.toAddress.map normalizeAddress).getD "" ≠ normalizeAddress tracked.address)
    · rw [if_pos hA]
    · have hB : weiToEth tx.value < tracked.minAmount := by
        by_contra hB
        exact hq ⟨hA, hB⟩
      rw [if_neg hA, if_pos hB]

/-- The qualification test of the Solana per-signature loop: not failed,
parseable, and threshold pass. -/
def solQualifies (env : SolEnv) (tracked : TrackedAddress) (sig : SolanaSignature) : Bool :=
  !sig.err &&
    match parseTransactionAmount env tracked.address sig.signature with
    | none => false
    | some (amount, _) => decide (¬ amount < tracked.minAmount)

/-- `processSolSig` never removes dedup keys. -/
theorem processSolSig_mono (env : SolEnv) (a : List AlertEvent)
    (tracked : TrackedAddress) (sig : SolanaSignature) (c h : String) (i : ℕ)
    (ha : hasAlert a c h i = true) :
    hasAlert (processSolSig env a tracked sig) c h i = true := by
  by_cases herr : sig.err = true
  · simp only [processSolSig, herr, if_true]
    exact ha
  · rw [Bool.not_eq_true] at herr
    rcases hp : parseTransactionAmount env tracked.address sig.signature with _ | ⟨amount, direction⟩
    · simp only [processSolSig, herr, Bool.false_eq_true, if_false, hp]
      exact ha
    · simp only [processSolSig, herr, Bool.false_eq_true, if_false, hp]
      split_ifs <;>
        first
          | exact ha
          | (rw [hasAlert_markSent, hasAlert_append, ha]; rfl)
          | (rw [hasAlert_append, ha]; rfl)

/-- `processSolSig` leaves a qualifying signature's dedup key present. -/
theorem processSolSig_ensures (env : SolEnv) (a : List AlertEvent)
    (tracked : TrackedAddress) (sig : SolanaSignature)
    (hq : solQualifies env tracked sig = true) :
    hasAlert (processSolSig env a tracked sig) "sol" sig.signature tracked.id = true := by
  unfold solQualifies at hq
  rw [Bool.and_eq_true] at hq
  obtain ⟨herr, hrest⟩ := hq
  rw [Bool.not_eq_true'] at herr
  rcases hp : parseTransactionAmount env tracked.address sig.signature with _ | ⟨amount, direction⟩
  · rw [hp] at hrest
    exact absurd hrest (by simp)
  · rw [hp] at hrest
    simp only [decide_eq_true_iff] at hrest
    simp only [processSolSig, herr, Bool.false_eq_true, if_false, hp]
    rw [if_neg hrest]
    by_cases hd : hasAlert a "sol" sig.signature tracked.id = true
    · rw [if_pos hd]
      exact hd
    · rw [if_neg hd]
      split_ifs <;>
        first
          | (rw [hasAlert_markSent, hasAlert_append]
             simp [hasAlert])
          | (rw [hasAlert_append]
             simp [hasAlert])

/-- `processSolSig` is the identity once the qualifying key is present (and
always when the signature does not qualify). -/
theorem processSolSig_noop (env : SolEnv) (a : List AlertEvent)
    (tracked : TrackedAddress) (sig : SolanaSignature)
    (h : solQualifies env tracked sig = true →
      hasAlert a "sol" sig.signature tracked.id = true) :
    processSolSig env a tracked sig = a := by
  by_cases herr : sig.err = true
  · simp only [processSolSig, herr, if_true]
  · rw [Bool.not_eq_true] at herr
    rcases hp : parseTransactionAmount env tracked.address sig.signature with _ | ⟨amount, direction⟩
    · simp only [processSolSig, herr, Bool.false_eq_true, if_false, hp]
    · by_cases hlt : amount < tracked.minAmount
      · simp only [processSolSig, herr, Bool.false_eq_true, if_false, hp]
        rw [if_pos hlt]
      · have hd : hasAlert a "sol" sig.signature tracked.id = true := by
          apply h
          unfold solQualifies
          rw [Bool.and_eq_true]
          refine ⟨by rw [herr]; rfl, ?_⟩
          rw [hp]
          simp [hlt]
        simp only [processSolSig, herr, Bool.false_eq_true, if_false, hp]
        rw [if_neg hlt, if_pos hd]

/-- Dedup keys of all pairs of one scanned transaction with the tracked
addresses that qualify for it. -/
def evmCycleKeys (chain : String) (trackedList : List TrackedAddress)
    (tx : EVMTransaction) : List (String × String × ℕ) :=
  trackedList.filterMap (fun tracked =>
    if evmQualifies tracked tx then some (chain, tx.hash, tracked.id) else none)

/-- The inner (per tracked address) loop of the EVM cycle never removes keys. -/
theorem evmInner_mono (env : EvmEnv) (chain : String) (tx : EVMTransaction) :
    StepMono (fun acc2 tracked => processEvmTx env chain acc2 tracked tx) :=
  fun a tracked c h i ha => processEvmTx_mono env chain a tracked tx c h i ha

/-- The inner loop establishes each qualifying pair's key. -/
theorem evmInner_ensures (env : EvmEnv) (chain : String) (tx : EVMTransaction) :
    StepEnsures (fun acc2 tracked => processEvmTx env chain acc2 tracked tx)
      (fun tracked => if evmQualifies tracked tx then [(chain, tx.hash, tracked.id)]
        else []) := by
  intro a tracked k hk
  beta_reduce at hk ⊢
  by_cases hq : evmQualifies tracked tx = true
  · rw [if_pos hq, List.mem_singleton] at hk
    subst hk
    exact processEvmTx_ensures env chain a tracked tx hq
  · rw [if_neg hq] at hk
    cases hk

/-- The inner loop skips pairs whose keys are already present. -/
theorem evmInner_noop (env : EvmEnv) (chain : String) (tx : EVMTransaction) :
    StepNoop (fun acc2 tracked => processEvmTx env chain acc2 tracked tx)
      (fun tracked => if evmQualifies tracked tx then [(chain, tx.hash, tracked.id)]
        else []) := by
  intro a tracked hall
  beta_reduce at hall ⊢
  apply processEvmTx_noop
  intro hq
  exact hall (chain, tx.hash, tracked.id) (by rw [if_pos hq]; exact List.mem_singleton.mpr rfl)

/-- The outer (per transaction) loop of the EVM cycle never removes keys. -/
theorem evmOuter_mono (env : EvmEnv) (chain : String) (trackedList : List TrackedAddress) :
    StepMono (fun acc tx =>
      trackedList.foldl (fun acc2 tracked => processEvmTx env chain acc2 tracked tx) acc) :=
  fun a tx c h i ha => foldl_hasAlert_mono (evmInner_mono env chain tx) trackedList a c h i ha

/-- The outer loop establishes every qualifying key of each transaction. -/
theorem evmOuter_ensures (env : EvmEnv) (chain : String)
    (trackedList : List TrackedAddress) :
    StepEnsures (fun acc tx =>
        trackedList.foldl (fun acc2 tracked => processEvmTx env chain acc2 tracked tx) acc)
      (evmCycleKeys chain trackedList) := by
  intro a tx k hk
  beta_reduce at hk ⊢
  rw [evmCycleKeys, List.mem_filterMap] at hk
  obtain ⟨tracked, htr, hif⟩ := hk
  by_cases hq : evmQualifies tracked tx = true
  · rw [if_pos hq, Option.some.injEq] at hif
    subst hif
    exact foldl_hasAlert_ensures (evmInner_mono env chain tx) (evmInner_ensures env chain tx)
      trackedList a tracked htr _ (by rw [if_pos hq]; exact List.mem_singleton.mpr rfl)
  · rw [if_neg hq] at hif
    cases hif

/-- The outer loop is the identity once every qualifying key of the
transaction is present. -/
theorem evmOuter_noop (env : EvmEnv) (chain : String)
    (trackedList : List TrackedAddress) :
    StepNoop (fun acc tx =>
        trackedList.foldl (fun acc2 tracked => processEvmTx env chain acc2 tracked tx) acc)
      (evmCycleKeys chain trackedList) := by
  intro a tx hall
  beta_reduce at hall ⊢
  apply foldl_hasAlert_noop (evmInner_noop env chain tx)
  intro tracked htr k hk
  apply hall
  rw [evmCycleKeys, List.mem_filterMap]
  by_cases hq : evmQualifies tracked tx = true
  · rw [if_pos hq, List.mem_singleton] at hk
    exact ⟨tracked, htr, by rw [if_pos hq, hk]⟩
  · rw [if_neg hq] at hk
    cases hk

/-- Dedup keys of the qualifying new signatures of one tracked address. -/
def solCycleKeys (env : SolEnv) (tracked : TrackedAddress) :
    List (String × String × ℕ) :=
  (getNewSignatures env tracked.address tracked.lastSeenCursor).signatures.filterMap
    (fun sig => if solQualifies env tracked sig then some ("sol", sig.signature, tracked.id)
      else none)

/-- The inner (per signature) loop of the Solana cycle never removes keys. -/
theorem solInner_mono (env : SolEnv) (tracked : TrackedAddress) :
    StepMono (fun acc2 sig => processSolSig env acc2 tracked sig) :=
  fun a sig c h i ha => processSolSig_mono env a tracked sig c h i ha

/-- The inner Solana loop establishes each qualifying signature's key. -/
theorem solInner_ensures (env : SolEnv) (tracked : TrackedAddress) :
    StepEnsures (fun acc2 sig => processSolSig env acc2 tracked sig)
      (fun sig => if solQualifies env tracked sig then [("sol", sig.signature, tracked.id)]
        else []) := by
  intro a sig k hk
  beta_reduce at hk ⊢
  by_cases hq : solQualifies env tracked sig = true
  · rw [if_pos hq, List.mem_singleton] at hk
    subst hk
    exact processSolSig_ensures env a tracked sig hq
  · rw [if_neg hq] at hk
    cases hk

/-- The inner Solana loop skips signatures whose keys are already present. -/
theorem solInner_noop (env : SolEnv) (tracked : TrackedAddress) :
    StepNoop (fun acc2 sig => processSolSig env acc2 tracked sig)
      (fun sig => if solQualifies env tracked sig then [("sol", sig.signature, tracked.id)]
        else []) := by
  intro a sig hall
  beta_reduce at hall ⊢
  apply processSolSig_noop
  intro hq
  exact hall ("sol", sig.signature, tracked.id)
    (by rw [if_pos hq]; exact List.mem_singleton.mpr rfl)

/-- The outer (per tracked address) loop of the Solana cycle never removes
keys. -/
theorem solOuter_mono (env : SolEnv) :
    StepMono (fun acc tracked =>
      (getNewSignatures env tracked.address tracked.lastSeenCursor).signatures.foldl
        (fun acc2 sig => processSolSig env acc2 tracked sig) acc) :=
  fun a tracked c h i ha =>
    foldl_hasAlert_mono (solInner_mono env tracked) _ a c h i ha

/-- The outer Solana loop establishes every qualifying key of each tracked
address. -/
theorem solOuter_ensures (env : SolEnv) :
    StepEnsures (fun acc tracked =>
        (getNewSignatures env tracked.address tracked.lastSeenCursor).signatures.foldl
          (fun acc2 sig => processSolSig env acc2 tracked sig) acc)
      (solCycleKeys env) := by
  intro a tracked k hk
  beta_reduce at hk ⊢
  rw [solCycleKeys, List.mem_filterMap] at hk
  obtain ⟨sig, hsig, hif⟩ := hk
  by_cases hq : solQualifies env tracked sig = true
  · rw [if_pos hq, Option.some.injEq] at hif
    subst hif
    exact foldl_hasAlert_ensures (solInner_mono env tracked) (solInner_ensures env tracked)
      _ a sig hsig _ (by rw [if_pos hq]; exact List.mem_singleton.mpr rfl)
  · rw [if_neg hq] at hif
    cases hif

/-- The outer Solana loop is the identity once every qualifying key of the
tracked address is present. -/
theorem solOuter_noop (env : SolEnv) :
    StepNoop (fun acc tracked =>
        (getNewSignatures env tracked.address tracked.lastSeenCursor).signatures.foldl
          (fun acc2 sig => processSolSig env acc2 tracked sig) acc)
      (solCycleKeys env) := by
  intro a tracked hall
  beta_reduce at hall ⊢
  apply foldl_hasAlert_noop (solInner_noop env tracked)
  intro sig hsig k hk
  apply hall
  rw [solCycleKeys, List.mem_filterMap]
  by_cases hq : solQualifies env tracked sig = true
  · rw [if_pos hq, List.mem_singleton] at hk
    exact ⟨sig, hsig, by rw [if_pos hq, hk]⟩
  · rw [if_neg hq] at hk
    cases hk

/-- Claim C5: alert processing is idempotent. Re-running an identical EVM or
Solana cycle — same scanned transactions or signatures, same tracked
addresses, unchanged cursors — over the ledger produced by the first run
creates zero additional AlertEvents and leaves every stored record, details
included, unchanged: the second pass finds each existing (chain,
transaction id, tracked address) key and skips creation. -/
theorem alert_processing_idempotent (eenv : EvmEnv) (chain : String)
    (alerts : List AlertEvent) (transactions : List EVMTransaction)
    (trackedList : List TrackedAddress) (senv : SolEnv)
    (solAlerts : List AlertEvent) (trackedSol : List TrackedAddress) :
    processEvmTxs eenv chain
        (processEvmTxs eenv chain alerts transactions trackedList)
        transactions trackedList =
      processEvmTxs eenv chain alerts transactions trackedList ∧
      processSolana senv (processSolana senv solAlerts trackedSol) trackedSol =
        processSolana senv solAlerts trackedSol := by
  constructor
  · exact foldl_hasAlert_idem (evmOuter_mono eenv chain trackedList)
      (evmOuter_ensures eenv chain trackedList) (evmOuter_noop eenv chain trackedList)
      transactions alerts
  · exact foldl_hasAlert_idem (solOuter_mono senv) (solOuter_ensures senv)
      (solOuter_noop senv) trackedSol solAlerts

/-! ### Risk score: range, classification, permutation invariance, time
dependence (claims C4, C8, C9) -/

/-- Sorting with insertion sort is invariant under permutation of the
input. -/
theorem insertionSort_perm_eq {l l' : List ℚ} (h : l.Perm l') :
    List.insertionSort (· ≤ ·) l = List.insertionSort (· ≤ ·) l' :=
  List.eq_of_perm_of_sorted
    (((List.perm_insertionSort _ l).trans h).trans (List.perm_insertionSort _ l').symm)
    (List.sorted_insertionSort _ l) (List.sorted_insertionSort _ l')

/-- The seed of a max fold bounds the fold from below. -/
theorem foldl_max_le_init (t : List ℚ) (b : ℚ) : b ≤ t.foldl max b := by
  induction t generalizing b with
  | nil => exact le_refl b
  | cons x xs ih => exact le_trans (le_max_left b x) (ih (max b x))

/-- Every element of the folded list is bounded by the max fold. -/
theorem foldl_max_le_mem (t : List ℚ) (b : ℚ) (x : ℚ) (hx : x ∈ t) :
    x ≤ t.foldl max b := by
  induction t generalizing b with
  | nil => cases hx
  | cons y ys ih =>
    rw [List.foldl_cons]
    rcases List.mem_cons.mp hx with he | ht
    · subst he
      exact le_trans (le_max_right b x) (foldl_max_le_init ys _)
    · exact ih (max b y) ht

/-- The max fold returns the seed or a list element. -/
theorem foldl_max_mem (t : List ℚ) (b : ℚ) : t.foldl max b ∈ b :: t := by
  induction t generalizing b with
  | nil => exact List.mem_singleton.mpr rfl
  | cons y ys ih =>
    rw [List.foldl_cons]
    have hmem := ih (max b y)
    rcases max_choice b y with hm | hm <;> rw [hm] at hmem ⊢
    · rcases List.mem_cons.mp hmem with he | ht
      · exact List.mem_cons.mpr (Or.inl he)
      · exact List.mem_cons.mpr (Or.inr (List.mem_cons.mpr (Or.inr ht)))
    · rcases List.mem_cons.mp hmem with he | ht
      · exact List.mem_cons.mpr (Or.inr (List.mem_cons.mpr (Or.inl he)))
      · exact List.mem_cons.mpr (Or.inr (List.mem_cons.mpr (Or.inr ht)))

/-- Elements bound `listMax` from below. -/
theorem le_listMax (l : List ℚ) (x : ℚ) (hx : x ∈ l) : x ≤ listMax l := by
  cases l with
  | nil => cases hx
  | cons a t =>
    cases List.mem_cons.mp hx with
    | inl he => exact he ▸ foldl_max_le_init t a
    | inr ht => exact foldl_max_le_mem t a x ht

/-- `listMax` of a nonempty list is one of its elements. -/
theorem listMax_mem (a : ℚ) (t : List ℚ) : listMax (a :: t) ∈ a :: t :=
  foldl_max_mem t a

/-- `listMax` is invariant under permutation. -/
theorem listMax_perm {l l' : List ℚ} (h : l.Perm l') : listMax l = listMax l' := by
  cases l with
  | nil =>
    have h2 : l' = [] := h.symm.eq_nil
    rw [h2]
  | cons a t =>
    cases l' with
    | nil => exact absurd h.eq_nil (by simp)
    | cons a' t' =>
      apply le_antisymm
      · exact le_listMax _ _ (h.mem_iff.mp (listMax_mem a t))
      · exact le_listMax _ _ (h.mem_iff.mpr (listMax_mem a' t'))

/-- `Math.round` of an integer-valued rational is that integer. -/
theorem jsRound_natCast (n : ℕ) : jsRound ((n : ℚ)) = (n : ℤ) := by
  rw [jsRound]
  refine Int.floor_eq_iff.mpr ⟨?_, ?_⟩
  · push_cast
    linarith
  · push_cast
    linarith

/-- Classification thresholds of `getRiskLevel`. -/
theorem getRiskLevel_spec (s : ℚ) :
    (getRiskLevel s = RiskLevel.critical ↔ 70 ≤ s) ∧
      (getRiskLevel s = RiskLevel.high ↔ 50 ≤ s ∧ s < 70) ∧
      (getRiskLevel s = RiskLevel.medium ↔ 25 ≤ s ∧ s < 50) ∧
      (getRiskLevel s = RiskLevel.low ↔ s < 25) := by
  unfold getRiskLevel
  split_ifs with h1 h2 h3
  · exact ⟨⟨fun _ => h1, fun _ => rfl⟩,
      ⟨fun hx => absurd hx (by decide), fun hx => absurd h1 (not_le.mpr hx.2)⟩,
      ⟨fun hx => absurd hx (by decide), fun hx => absurd hx.2 (not_lt.mpr (by linarith))⟩,
      ⟨fun hx => absurd hx (by decide), fun hx => absurd hx (not_lt.mpr (by linarith))⟩⟩
  · exact ⟨⟨fun hx => absurd hx (by decide), fun hx => absurd hx h1⟩,
      ⟨fun _ => ⟨h2, not_le.mp h1⟩, fun _ => rfl⟩,
      ⟨fun hx => absurd hx (by decide), fun hx => absurd hx.2 (not_lt.mpr h2)⟩,
      ⟨fun hx => absurd hx (by decide), fun hx => absurd hx (not_lt.mpr (by linarith))⟩⟩
  · exact ⟨⟨fun hx => absurd hx (by decide), fun hx => absurd hx h1⟩,
      ⟨fun hx => absurd hx (by decide), fun hx => absurd hx.1 h2⟩,
      ⟨fun _ => ⟨h3, not_le.mp h2⟩, fun _ => rfl⟩,
      ⟨fun hx => absurd hx (by decide), fun hx => absurd hx (not_lt.mpr (by linarith))⟩⟩
  · exact ⟨⟨fun hx => absurd hx (by decide), fun hx => absurd hx h1⟩,
      ⟨fun hx => absurd hx (by decide), fun hx => absurd hx.1 h2⟩,
      ⟨fun hx => absurd hx (by decide), fun hx => absurd hx.1 h3⟩,
      ⟨fun _ => not_le.mp h3, fun _ => rfl⟩⟩

/-- The velocity sub-score is a natural number at most 25. -/
theorem analyzeVelocity_nat (l : List TransactionActivity) :
    ∃ n : ℕ, (analyzeVelocity l).score = (n : ℚ) ∧ n ≤ 25 := by
  simp only [analyzeVelocity]
  split_ifs
  · exact ⟨0, by norm_num, by omega⟩
  · exact ⟨25, by norm_num, by omega⟩
  · exact ⟨15, by norm_num, by omega⟩
  · exact ⟨0, by norm_num, by omega⟩

/-- The spike sub-score is a natural number at most 20. -/
theorem analyzeSpikes_nat (l : List TransactionActivity) :
    ∃ n : ℕ, (analyzeSpikes l).score = (n : ℚ) ∧ n ≤ 20 := by
  simp only [analyzeSpikes]
  split_ifs
  · exact ⟨0, by norm_num, by omega⟩
  · exact ⟨20, by norm_num, by omega⟩
  · exact ⟨10, by norm_num, by omega⟩
  · exact ⟨0, by norm_num, by omega⟩

/-- The wallet-age sub-score is a natural number at most 20. -/
theorem analyzeWalletAge_nat (l : List TransactionActivity) (now : ℚ) :
    ∃ n : ℕ, (analyzeWalletAge l now).score = (n : ℚ) ∧ n ≤ 20 := by
  simp only [analyzeWalletAge]
  split_ifs
  · exact ⟨0, by norm_num, by omega⟩
  · exact ⟨20, by norm_num, by omega⟩
  · exact ⟨10, by norm_num, by omega⟩
  · exact ⟨0, by norm_num, by omega⟩

/-- The pattern sub-score is a natural number at most 15. -/
theorem analyzePatterns_nat (l : List TransactionActivity) :
    ∃ n : ℕ, (analyzePatterns l).score = (n : ℚ) ∧ n ≤ 15 := by
  simp only [analyzePatterns]
  split_ifs
  · exact ⟨0, by norm_num, by omega⟩
  · exact ⟨15, by norm_num, by omega⟩
  · exact ⟨0, by norm_num, by omega⟩

/-- The flow sub-score is a natural number at most 20. -/
theorem analyzeFlows_nat (l : List TransactionActivity) :
    ∃ n : ℕ, (analyzeFlows l).score = (n : ℚ) ∧ n ≤ 20 := by
  simp only [analyzeFlows]
  split_ifs
  · exact ⟨0, by norm_num, by omega⟩
  · exact ⟨20, by norm_num, by omega⟩
  · exact ⟨15, by norm_num, by omega⟩
  · exact ⟨0, by norm_num, by omega⟩

/-- Claim C9: for every activity list (and wall-clock time), the returned
riskScore is an integer between 0 and 100, and the returned riskLevel is
exactly the classification of that score: critical iff 70 or more, high iff
in [50, 70), medium iff in [25, 50), low iff below 25. -/
theorem calculateRiskScore_range_and_level (l : List TransactionActivity) (now : ℚ) :
    ∃ n : ℕ, (calculateRiskScore l now).riskScore = (n : ℚ) ∧ n ≤ 100 ∧
      ((calculateRiskScore l now).riskLevel = RiskLevel.critical ↔
        70 ≤ (calculateRiskScore l now).riskScore) ∧
      ((calculateRiskScore l now).riskLevel = RiskLevel.high ↔
        (50 ≤ (calculateRiskScore l now).riskScore ∧
          (calculateRiskScore l now).riskScore < 70)) ∧
      ((calculateRiskScore l now).riskLevel = RiskLevel.medium ↔
        (25 ≤ (calculateRiskScore l now).riskScore ∧
          (calculateRiskScore l now).riskScore < 50)) ∧
      ((calculateRiskScore l now).riskLevel = RiskLevel.low ↔
        (calculateRiskScore l now).riskScore < 25) := by
  by_cases hlen : l.length = 0
  · refine ⟨0, ?_, ?_, ?_, ?_, ?_, ?_⟩ <;>
      simp [calculateRiskScore, hlen]
  · obtain ⟨n1, h1, b1⟩ := analyzeVelocity_nat l
    obtain ⟨n2, h2, b2⟩ := analyzeSpikes_nat l
    obtain ⟨n3, h3, b3⟩ := analyzeWalletAge_nat l now
    obtain ⟨n4, h4, b4⟩ := analyzePatterns_nat l
    obtain ⟨n5, h5, b5⟩ := analyzeFlows_nat l
    have htot : (analyzeVelocity l).score + (analyzeSpikes l).score +
        (analyzeWalletAge l now).score + (analyzePatterns l).score +
        (analyzeFlows l).score = ((n1 + n2 + n3 + n4 + n5 : ℕ) : ℚ) := by
      rw [h1, h2, h3, h4, h5]
      push_cast
      ring
    have hle : (n1 + n2 + n3 + n4 + n5 : ℕ) ≤ 100 := by omega
    have hclamp : min 100 (max 0 (((n1 + n2 + n3 + n4 + n5 : ℕ) : ℚ))) =
        ((n1 + n2 + n3 + n4 + n5 : ℕ) : ℚ) := by
      rw [max_eq_right (Nat.cast_nonneg _), min_eq_right (by exact_mod_cast hle)]
    have hrs : (calculateRiskScore l now).riskScore = ((n1 + n2 + n3 + n4 + n5 : ℕ) : ℚ) := by
      simp only [calculateRiskScore, if_neg hlen]
      rw [htot, hclamp]
      rw [jsRound_natCast]
      push_cast
      ring
    have hlv : (calculateRiskScore l now).riskLevel =
        getRiskLevel ((n1 + n2 + n3 + n4 + n5 : ℕ) : ℚ) := by
      simp only [calculateRiskScore, if_neg hlen]
      rw [htot, hclamp]
    obtain ⟨hc, hh, hm, hlow⟩ := getRiskLevel_spec ((n1 + n2 + n3 + n4 + n5 : ℕ) : ℚ)
    refine ⟨n1 + n2 + n3 + n4 + n5, hrs, hle, ?_, ?_, ?_, ?_⟩ <;> rw [hrs, hlv]
    · exact hc
    · exact hh
    · exact hm
    · exact hlow

/-- The velocity sub-score is invariant under permutation of the activity
list: the timestamps are sorted before the gaps are accumulated. -/
theorem analyzeVelocity_perm {l l' : List TransactionActivity} (h : l.Perm l') :
    analyzeVelocity l = analyzeVelocity l' := by
  simp only [analyzeVelocity]
  rw [h.length_eq, insertionSort_perm_eq (h.map (fun x => x.timestamp))]

/-- The spike sub-score is invariant under permutation: it reads only the
sum, length and maximum of the amounts. -/
theorem analyzeSpikes_perm {l l' : List TransactionActivity} (h : l.Perm l') :
    analyzeSpikes l = analyzeSpikes l' := by
  simp only [analyzeSpikes]
  rw [h.length_eq, (h.map (fun x => x.amount)).sum_eq,
    (h.map (fun x => x.amount)).length_eq, listMax_perm (h.map (fun x => x.amount))]

/-- The wallet-age sub-score is invariant under permutation: the earliest
timestamp is the head of the sorted timestamps. -/
theorem analyzeWalletAge_perm {l l' : List TransactionActivity} (h : l.Perm l')
    (now : ℚ) : analyzeWalletAge l now = analyzeWalletAge l' now := by
  simp only [analyzeWalletAge]
  rw [h.length_eq, insertionSort_perm_eq (h.map (fun x => x.timestamp))]

/-- The pattern sub-score is invariant under permutation: it reads only a
count and the length. -/
theorem analyzePatterns_perm {l l' : List TransactionActivity} (h : l.Perm l') :
    analyzePatterns l = analyzePatterns l' := by
  simp only [analyzePatterns]
  rw [h.length_eq, h.countP_eq (fun tx => isRoundAmount tx.amount)]

/-- The flow sub-score is invariant under permutation: it reads only sums and
counts of the direction-filtered sublists. -/
theorem analyzeFlows_perm {l l' : List TransactionActivity} (h : l.Perm l') :
    analyzeFlows l = analyzeFlows l' := by
  simp only [analyzeFlows]
  rw [h.length_eq,
    ((h.filter (fun tx => tx.direction == Direction.incoming)).map (fun x => x.amount)).sum_eq,
    ((h.filter (fun tx => tx.direction == Direction.outgoing)).map (fun x => x.amount)).sum_eq,
    (h.filter (fun tx => tx.direction == Direction.incoming)).length_eq,
    (h.filter (fun tx => tx.direction == Direction.outgoing)).length_eq]

/-- Claim C8: the risk score is invariant under permutation of the activity
list — same multiset of records in any order yields the same riskScore, the
same riskLevel and the same reasons, for any fixed wall-clock time. -/
theorem calculateRiskScore_perm_invariant (now : ℚ)
    {l l' : List TransactionActivity} (h : l.Perm l') :
    calculateRiskScore l now = calculateRiskScore l' now := by
  simp only [calculateRiskScore]
  rw [h.length_eq, analyzeVelocity_perm h, analyzeSpikes_perm h,
    analyzeWalletAge_perm h now, analyzePatterns_perm h, analyzeFlows_perm h]

/-- Witness for claim C8: two records in swapped order give identical
analyses. -/
theorem calculateRiskScore_perm_invariant_witness :
    calculateRiskScore
        [TransactionActivity.mk "h1" 1 "a" "b" 1 "ETH" Direction.incoming,
         TransactionActivity.mk "h2" 2 "a" "b" 2 "ETH" Direction.outgoing] 0 =
      calculateRiskScore
        [TransactionActivity.mk "h2" 2 "a" "b" 2 "ETH" Direction.outgoing,
         TransactionActivity.mk "h1" 1 "a" "b" 1 "ETH" Direction.incoming] 0 :=
  calculateRiskScore_perm_invariant 0
    (List.Perm.swap (TransactionActivity.mk "h2" 2 "a" "b" 2 "ETH" Direction.outgoing)
      (TransactionActivity.mk "h1" 1 "a" "b" 1 "ETH" Direction.incoming) [])

/-- Ten identical zero-value inbound records at timestamp 0; enough activity
to trigger the velocity and wallet-age signals. -/
def cx4Activity : List TransactionActivity :=
  List.replicate 10 (TransactionActivity.mk "h" 0 "a" "b" 0 "ETH" Direction.incoming)

/-- Claim C4 (counterexample): the same activity list scored at wall-clock
time 0 and at wall-clock time 10^9 seconds returns different risk scores
(60 vs 40): `analyzeWalletAge` reads the current time, so
`calculateRiskScore` is not a pure function of the activity list alone. -/
theorem calculateRiskScore_depends_on_wall_clock :
    (calculateRiskScore cx4Activity 0).riskScore ≠
      (calculateRiskScore cx4Activity 1000000000).riskScore := by
  have hv : analyzeVelocity cx4Activity =
      SubScore.mk 25 (some "Very high transaction velocity (potential bot activity)") := by
    norm_num [analyzeVelocity, cx4Activity, List.replicate, List.insertionSort,
      List.orderedInsert, gaps]
  have hs : analyzeSpikes cx4Activity = SubScore.mk 0 none := by
    norm_num [analyzeSpikes, cx4Activity, List.replicate, listMax]
  have ha0 : analyzeWalletAge cx4Activity 0 =
      SubScore.mk 20 (some "New wallet with high activity (potential throwaway)") := by
    norm_num [analyzeWalletAge, cx4Activity, List.replicate, List.insertionSort,
      List.orderedInsert]
  have ha9 : analyzeWalletAge cx4Activity 1000000000 = SubScore.mk 0 none := by
    norm_num [analyzeWalletAge, cx4Activity, List.replicate, List.insertionSort,
      List.orderedInsert]
  have hp : analyzePatterns cx4Activity =
      SubScore.mk 15 (some "Many round-number transactions (possible automation)") := by
    norm_num [analyzePatterns, cx4Activity, List.replicate, isRoundAmount]
  have hf : analyzeFlows cx4Activity = SubScore.mk 0 none := by
    norm_num [analyzeFlows, cx4Activity, List.replicate]
  have hlen : ¬ cx4Activity.length = 0 := by norm_num [cx4Activity]
  have h0 : (calculateRiskScore cx4Activity 0).riskScore = 60 := by
    simp only [calculateRiskScore, if_neg hlen]
    rw [hv, hs, ha0, hp, hf]
    norm_num [jsRound, max_def, min_def]
  have h9 : (calculateRiskScore cx4Activity 1000000000).riskScore = 40 := by
    simp only [calculateRiskScore, if_neg hlen]
    rw [hv, hs, ha9, hp, hf]
    norm_num [jsRound, max_def, min_def]
  rw [h0, h9]
  norm_num

/-- Claim C4 (amended): the only dependence of `calculateRiskScore` on
ambient state is the wall-clock read inside `analyzeWalletAge`: two
invocations with the same list whose wallet-age sub-analyses agree — in
particular, any two invocations at the same instant — return identical
results (same riskScore, same riskLevel, same reasons). -/
theorem calculateRiskScore_deterministic_in_time (l : List TransactionActivity)
    (n1 n2 : ℚ) (h : analyzeWalletAge l n1 = analyzeWalletAge l n2) :
    calculateRiskScore l n1 = calculateRiskScore l n2 := by
  unfold calculateRiskScore
  rw [h]

/-- Witness for the amended claim C4 on the empty activity list. -/
theorem calculateRiskScore_deterministic_in_time_witness :
    calculateRiskScore [] 0 = calculateRiskScore [] 5 :=
  calculateRiskScore_deterministic_in_time [] 0 5 rfl

/-! ### The on-demand check path: output cap and ordering (claim C10) -/

/-- Block timestamps reported by the chain never decrease with block height —
the property of real chains under which "most recent first" is meaningful. -/
def BlocksMonotone (env : EvmEnv) : Prop :=
  ∀ b b' : ℕ, b ≤ b' → ∀ blk blk', env.blocks b = some blk → env.blocks b' = some blk' →
    blk.timestamp ≤ blk'.timestamp

/-- The signature page returned by the RPC is most-recent-first: block times
present and non-increasing along the list. -/
def SigsTimeSorted (env : SolEnv) (address : String) : Prop :=
  (∀ s ∈ env.signatures address, ∃ t : ℤ, s.blockTime = some t) ∧
    List.Pairwise (fun s s' => ∀ t t' : ℤ, s.blockTime = some t → s'.blockTime = some t' →
      t' ≤ t) (env.signatures address)

/-- An unconditionally satisfied relation is pairwise on any list. -/
theorem list_pairwise_trivial {α : Type} {R : α → α → Prop} (l : List α)
    (h : ∀ a ∈ l, ∀ b ∈ l, R a b) : l.Pairwise R := by
  induction l with
  | nil => exact List.Pairwise.nil
  | cons x xs ih =>
    refine List.Pairwise.cons ?_ (ih ?_)
    · intro y hy
      exact h x (List.mem_cons_self x xs) y (List.mem_cons_of_mem x hy)
    · intro a ha b hb
      exact h a (List.mem_cons_of_mem x ha) b (List.mem_cons_of_mem x hb)

/-- Transactions collected block-by-block over an ascending block range carry
non-decreasing block timestamps, for any per-block extraction that tags each
transaction with its block's timestamp. -/
theorem pairwise_ts_flatMap_range' (env : EvmEnv) (g : ℕ → List EVMTransaction)
    (hg : ∀ bn x, x ∈ g bn → ∃ blk, env.blocks bn = some blk ∧
      x.timestamp = some blk.timestamp)
    (hmono : BlocksMonotone env) :
    ∀ (n f : ℕ), List.Pairwise
      (fun tx tx' => ∀ t t' : ℕ, tx.timestamp = some t → tx'.timestamp = some t' → t ≤ t')
      ((List.range' f n).flatMap g) := by
  intro n
  induction n with
  | zero => intro f; exact List.Pairwise.nil
  | succ m ih =>
    intro f
    rw [List.range'_succ, List.flatMap_cons, List.pairwise_append]
    refine ⟨?_, ih (f + 1), ?_⟩
    · apply list_pairwise_trivial
      intro a ha b hb
      obtain ⟨blk, hblk, hts⟩ := hg f a ha
      obtain ⟨blk', hblk', hts'⟩ := hg f b hb
      rw [hblk] at hblk'
      injection hblk' with he
      intro t t' h1 h2
      rw [hts] at h1
      rw [hts'] at h2
      injection h1 with h1
      injection h2 with h2
      subst h1
      subst h2
      rw [he]
    · intro a ha b hb
      obtain ⟨blk, hblk, hts⟩ := hg f a ha
      obtain ⟨bn, hbn, hbmem⟩ := List.mem_flatMap.mp hb
      obtain ⟨blk', hblk', hts'⟩ := hg bn b hbmem
      have hfbn : f ≤ bn := by
        have h1 := (List.mem_range'_1.mp hbn).1
        omega
      intro t t' h1 h2
      rw [hts] at h1
      injection h1 with h1
      rw [hts'] at h2
      injection h2 with h2
      subst h1
      subst h2
      exact hmono f bn hfbn blk blk' hblk hblk'

/-- Every transaction emitted by the per-block extraction of
`scanBlocksForAddress` is tagged with its block's timestamp. -/
theorem scan_block_fn_spec (env : EvmEnv) (norm : String) (bn : ℕ) (x : EVMTransaction)
    (hx : x ∈ (match env.blocks bn with
      | none => ([] : List EVMTransaction)
      | some block => (block.transactions.filter (matchesAddress norm)).map
          (fun tx : EVMTransaction => { tx with timestamp := some block.timestamp }))) :
    ∃ blk, env.blocks bn = some blk ∧ x.timestamp = some blk.timestamp := by
  rcases hb : env.blocks bn with _ | blk
  · simp only [hb] at hx
    cases hx
  · simp only [hb] at hx
    rcases List.mem_map.mp hx with ⟨tx, htx, hxe⟩
    exact ⟨blk, rfl, by rw [← hxe]⟩

/-- The scan output of `scanBlocksForAddress` is ordered by non-decreasing
block timestamp when the chain's timestamps are monotone. -/
theorem scanBlocksForAddress_pairwise (env : EvmEnv) (address : String)
    (fromBlock toBlock : ℕ) (hmono : BlocksMonotone env) :
    List.Pairwise
      (fun tx tx' => ∀ t t' : ℕ, tx.timestamp = some t → tx'.timestamp = some t' → t ≤ t')
      (scanBlocksForAddress env address fromBlock toBlock) := by
  simp only [scanBlocksForAddress]
  exact pairwise_ts_flatMap_range' env _
    (fun bn x hx => scan_block_fn_spec env (normalizeAddress address) bn x hx) hmono _ _

/-- Every transaction returned by `scanBlocksForAddress` has a timestamp. -/
theorem scanBlocksForAddress_some_ts (env : EvmEnv) (address : String)
    (fromBlock toBlock : ℕ) :
    ∀ x ∈ scanBlocksForAddress env address fromBlock toBlock,
      ∃ t : ℕ, x.timestamp = some t := by
  intro x hx
  simp only [scanBlocksForAddress] at hx
  obtain ⟨bn, hbn, hmem⟩ := List.mem_flatMap.mp hx
  obtain ⟨blk, hblk, hts⟩ := scan_block_fn_spec env (normalizeAddress address) bn x hmem
  exact ⟨blk.timestamp, hts⟩

/-- The timestamp of a parsed EVM activity record is its transaction's block
timestamp when present. -/
theorem evmParseTransaction_timestamp (env : EvmEnv) (target : String)
    (tx : EVMTransaction) (chain : String) (t : ℕ) (h : tx.timestamp = some t) :
    (evmParseTransaction env target tx chain).timestamp = (t : ℚ) := by
  simp only [evmParseTransaction, h]

/-- `getRecentTransactions` (EVM) returns its records most recent first when
the chain's block timestamps are monotone. -/
theorem evmGetRecentTransactions_ordered (env : EvmEnv) (chain address : String)
    (hmono : BlocksMonotone env) :
    List.Pairwise (fun a b => b.timestamp ≤ a.timestamp)
      (evmGetRecentTransactions env chain address) := by
  simp only [evmGetRecentTransactions]
  rcases hL : env.latestBlock with _ | latest
  · exact List.Pairwise.nil
  · rw [List.pairwise_reverse, List.pairwise_map]
    have hscan := scanBlocksForAddress_pairwise env address (latest - 1000) latest hmono
    have hsome := scanBlocksForAddress_some_ts env address (latest - 1000) latest
    have hD := List.Pairwise.sublist
      (List.drop_sublist
        ((scanBlocksForAddress env address (latest - 1000) latest).length - 20)
        (scanBlocksForAddress env address (latest - 1000) latest)) hscan
    refine List.Pairwise.imp_of_mem ?_ hD
    intro a b hma hmb hR
    obtain ⟨t, ht⟩ := hsome a (List.drop_subset _ _ hma)
    obtain ⟨t', ht'⟩ := hsome b (List.drop_subset _ _ hmb)
    rw [evmParseTransaction_timestamp env address a chain t ht,
      evmParseTransaction_timestamp env address b chain t' ht']
    exact_mod_cast hR t t' ht ht'

/-- The timestamp of a parsed Solana activity record is the signature's block
time when present. -/
theorem solParse_timestamp (env : SolEnv) (address : String) (sig : SolanaSignature)
    (tx : SolanaTransaction) (x : TransactionActivity)
    (h : solParseTransaction env address sig tx = some x) (t : ℤ)
    (hbt : sig.blockTime = some t) : x.timestamp = (t : ℚ) := by
  unfold solParseTransaction at h
  split at h
  · exact absurd h (by simp)
  · simp only [Option.some.injEq] at h
    rw [← h]
    simp [hbt]

/-- The timestamp of an activity record produced by the Solana read of the
check path is its signature's block time. -/
theorem checkSig_timestamp (env : SolEnv) (address : String) (s : SolanaSignature)
    (x : TransactionActivity)
    (hx : (if s.err then none
      else match env.txs s.signature with
        | none => none
        | some tx => solParseTransaction env address s tx) = some x)
    (t : ℤ) (hbt : s.blockTime = some t) : x.timestamp = (t : ℚ) := by
  by_cases herr : s.err = true
  · rw [if_pos herr] at hx
    cases hx
  · rw [if_neg herr] at hx
    rcases htx : env.txs s.signature with _ | tx
    · simp only [htx] at hx
      cases hx
    · simp only [htx] at hx
      exact solParse_timestamp env address s tx x hx t hbt

/-- `getRecentTransactions` (Solana) returns its records most recent first
when the RPC's signature page is most-recent-first with block times
present. -/
theorem solGetRecentTransactions_ordered (env : SolEnv) (address : String)
    (hs : SigsTimeSorted env address) :
    List.Pairwise (fun a b => b.timestamp ≤ a.timestamp)
      (solGetRecentTransactions env address) := by
  simp only [solGetRecentTransactions]
  rw [List.pairwise_filterMap]
  have hpw := List.Pairwise.sublist (List.take_sublist 20 _) hs.2
  refine List.Pairwise.imp_of_mem ?_ hpw
  intro s s' hms hms' hR x hx y hy
  obtain ⟨t, hbt⟩ := hs.1 s (List.take_subset _ _ hms)
  obtain ⟨t', hbt'⟩ := hs.1 s' (List.take_subset _ _ hms')
  rw [Option.mem_def] at hx hy
  rw [checkSig_timestamp env address s x hx t hbt,
    checkSig_timestamp env address s' y hy t' hbt']
  exact_mod_cast hR t t' hbt hbt'

/-- Claim C10: the check path caps its output at 20 records — the EVM reader
keeps the last 20 matched transactions and the route truncates to 20 — and
returns them most recent first: ordered by non-increasing timestamp, on the
EVM branch under monotone chain timestamps and on the Solana branch under a
most-recent-first RPC page. -/
theorem check_recentActivity_capped_and_ordered (eenv : EvmEnv) (senv : SolEnv)
    (chain : Chain) (address : String) :
    (checkRecentActivity eenv senv chain address).length ≤ 20 ∧
      (BlocksMonotone eenv → chain ≠ Chain.sol →
        List.Pairwise (fun a b => b.timestamp ≤ a.timestamp)
          (checkRecentActivity eenv senv chain address)) ∧
      (SigsTimeSorted senv address → chain = Chain.sol →
        List.Pairwise (fun a b => b.timestamp ≤ a.timestamp)
          (checkRecentActivity eenv senv chain address)) := by
  refine ⟨?_, ?_, ?_⟩
  · simp only [checkRecentActivity]
    exact List.length_take_le _ _
  · intro hmono hchain
    simp only [checkRecentActivity, if_neg hchain]
    exact List.Pairwise.sublist (List.take_sublist _ _)
      (evmGetRecentTransactions_ordered eenv (chainId chain) address hmono)
  · intro hsorted hchain
    simp only [checkRecentActivity, if_pos hchain]
    exact List.Pairwise.sublist (List.take_sublist _ _)
      (solGetRecentTransactions_ordered senv address hsorted)

/-- Concrete environment for the C10 witness: a single block repeated at
every height, and an empty Solana page. -/
def c10Env : EvmEnv :=
  ⟨some 3, fun _ => some (EVMBlock.mk 5 []), 0, fun _ _ => true⟩

/-- Concrete Solana environment for the C10 witness. -/
def c10Sol : SolEnv :=
  ⟨fun _ => [], fun _ => none, 0, fun _ _ => true⟩

/-- Witness for claim C10 at a concrete environment on the `eth` branch. -/
theorem check_recentActivity_capped_and_ordered_witness :
    (checkRecentActivity c10Env c10Sol Chain.eth "0xaa").length ≤ 20 ∧
      List.Pairwise (fun a b => b.timestamp ≤ a.timestamp)
        (checkRecentActivity c10Env c10Sol Chain.eth "0xaa") := by
  have h := check_recentActivity_capped_and_ordered c10Env c10Sol Chain.eth "0xaa"
  refine ⟨h.1, h.2.1 ?_ (by decide)⟩
  intro b b' hbb blk blk' hb hb'
  have h1 : blk = EVMBlock.mk 5 [] := by
    have := hb.symm
    simpa [c10Env] using this
  have h2 : blk' = EVMBlock.mk 5 [] := by
    have := hb'.symm
    simpa [c10Env] using this
  rw [h1, h2]
